import Mathlib

/-!
Verification development for the quotation server (`src/server.js`).

Embedding choices:
* JavaScript finite numbers are embedded as exact rationals (`ℚ`); IEEE `NaN`
  is the `none` value of `Option ℚ`.  All arithmetic the claims exercise stays
  inside the decimal fractions, where the rational semantics and the IEEE
  semantics of the source agree on the claims' statements.
* JavaScript runtime values (as produced by `JSON.parse` and property access)
  are the inductive `JsVal`.
* Fallible code returns `Except`/`Option`; a thrown `Error` is `JsErr.thrown`
  with its message, a `TypeError` from property access on `null`/`undefined`
  is `JsErr.typeErr`.
-/

namespace SolarQuotes

/-- `Number.EPSILON`, i.e. `2 ^ (-52)`. -/
def jsEps : ℚ := 1 / 4503599627370496

/-- `Math.round x`: the closest integer, ties toward `+∞`, i.e. `⌊x + 1/2⌋`. -/
def jsRound (x : ℚ) : ℚ := ⌊x + 1/2⌋

/-- `round2` from `server.js`:
    `Math.round((Number(value) + Number.EPSILON) * 100) / 100`. -/
def round2 (value : ℚ) : ℚ := jsRound ((value + jsEps) * 100) / 100

/-- JavaScript runtime values (the fragment the server manipulates). -/
inductive JsVal where
  | undefined
  | null
  | bool (b : Bool)
  | num (q : ℚ)
  | nan
  | str (s : String)
  | arr (elems : List JsVal)
  | obj (fields : List (String × JsVal))
deriving Repr

/-- JavaScript truthiness. -/
def truthy : JsVal → Bool
  | .undefined => false
  | .null => false
  | .bool b => b
  | .num q => q != 0
  | .nan => false
  | .str s => s != ""
  | .arr _ => true
  | .obj _ => true

/-- The JavaScript `a || b` operator. -/
def jsOr (a b : JsVal) : JsVal := if truthy a then a else b

/-- Property read `v[k]` on a value that is not `null`/`undefined`
    (duplicate keys: the later entry wins, as in JS objects). -/
def getPropD (v : JsVal) (k : String) : JsVal :=
  match v with
  | .obj fs => fs.foldl (fun acc p => if p.1 == k then p.2 else acc) JsVal.undefined
  | _ => .undefined

/-- `Object.prototype.hasOwnProperty.call(v, k)` for the keys the server
    queries (plain data keys; string indices/length are never queried). -/
def hasOwn (v : JsVal) (k : String) : Bool :=
  match v with
  | .obj fs => fs.any (fun p => p.1 == k)
  | _ => false

/-- Decimal digits of the fractional part `0 ≤ q < 1`, most significant first,
    stopping at zero remainder (fuel-bounded; every value reaching it in this
    development is a finite decimal fraction). -/
def fracDigits : Nat → ℚ → String
  | 0, _ => ""
  | n + 1, q =>
    if q = 0 then ""
    else
      let d := (⌊q * 10⌋).toNat
      toString d ++ fracDigits n (q * 10 - (d : ℚ))

/-- JavaScript `ToString` of a finite number, for the decimal range the server
    produces (no exponent notation; integers print as integers). -/
def ratToString (q : ℚ) : String :=
  let sgn := if q < 0 then "-" else ""
  let a := |q|
  let ip := (⌊a⌋).toNat
  let fr := a - (ip : ℚ)
  if fr = 0 then sgn ++ toString ip
  else sgn ++ toString ip ++ "." ++ fracDigits 30 fr

mutual

/-- JavaScript `String(v)` on the value fragment of this model. -/
def jsToString : JsVal → String
  | .undefined => "undefined"
  | .null => "null"
  | .bool b => if b then "true" else "false"
  | .num q => ratToString q
  | .nan => "NaN"
  | .str s => s
  | .arr l => String.intercalate "," (jsArrToStrings l)
  | .obj _ => "[object Object]"

/-- `Array.prototype.join(",")` element conversion: `null`/`undefined`
    become the empty string. -/
def jsArrToStrings : List JsVal → List String
  | [] => []
  | .null :: r => "" :: jsArrToStrings r
  | .undefined :: r => "" :: jsArrToStrings r
  | v :: r => jsToString v :: jsArrToStrings r

end

/-- Whitespace stripped by `Number(string)` (the code points the server's
    inputs can contain). -/
def isJsSpace (c : Char) : Bool :=
  c == ' ' || c == '\t' || c == '\n' || c == '\r' ||
  c.toNat == 11 || c.toNat == 12 || c.toNat == 160

/-- Value of a list of decimal digit characters. -/
def digitsToNat (l : List Char) : Nat :=
  l.foldl (fun a c => a * 10 + (c.toNat - 48)) 0

/-- Core of `Number(string)` after trimming: optional sign, decimal digits
    with optional fraction and exponent.  `none` is `NaN`.
    (Hex/`Infinity` forms never occur in this application's inputs.) -/
def strToNumCore (cs : List Char) : Option ℚ :=
  let sgn : ℚ := match cs with
    | '-' :: _ => -1
    | _ => 1
  let cs0 := match cs with
    | '-' :: r => r
    | '+' :: r => r
    | _ => cs
  let ip := cs0.takeWhile (·.isDigit)
  let cs1 := cs0.drop ip.length
  let fp := match cs1 with
    | '.' :: r => r.takeWhile (·.isDigit)
    | _ => []
  let cs2 := match cs1 with
    | '.' :: r => r.drop fp.length
    | _ => cs1
  if ip.isEmpty && fp.isEmpty then none
  else
    let mant : ℚ := (digitsToNat ip : ℚ) + (digitsToNat fp : ℚ) / ((10 : ℚ) ^ fp.length)
    match cs2 with
    | [] => some (sgn * mant)
    | 'e' :: r => strToNumExp sgn mant r
    | 'E' :: r => strToNumExp sgn mant r
    | _ => none
where
  strToNumExp (sgn mant : ℚ) (r : List Char) : Option ℚ :=
    let esgn : Int := match r with
      | '-' :: _ => -1
      | _ => 1
    let r2 := match r with
      | '-' :: t => t
      | '+' :: t => t
      | _ => r
    let ed := r2.takeWhile (·.isDigit)
    if ed.isEmpty || !(r2.drop ed.length).isEmpty then none
    else some (sgn * mant * (10 : ℚ) ^ (esgn * (digitsToNat ed : Int)))

/-- JavaScript `String.prototype.trim` (drops leading/trailing whitespace;
    list-based so that it evaluates by reduction). -/
def jsTrim (s : String) : String :=
  String.mk (((s.toList.dropWhile isJsSpace).reverse.dropWhile isJsSpace).reverse)

/-- JavaScript `Number(string)`. -/
def strToNum (s : String) : Option ℚ :=
  let cs := ((s.toList.dropWhile isJsSpace).reverse.dropWhile isJsSpace).reverse
  if cs.isEmpty then some 0 else strToNumCore cs

/-- JavaScript `Number(v)` (`none` = `NaN`). -/
def toNumber : JsVal → Option ℚ
  | .undefined => none
  | .null => some 0
  | .bool b => some (if b then 1 else 0)
  | .num q => some q
  | .nan => none
  | .str s => strToNum s
  | .arr l => strToNum (jsToString (.arr l))
  | .obj fs => strToNum (jsToString (.obj fs))

/-- The `text` helper of `server.js`: `null`/`undefined` become `''`,
    anything else is `String(value)`. -/
def text (value : JsVal) : String :=
  match value with
  | .null => ""
  | .undefined => ""
  | v => jsToString v

/-- NaN-propagating addition (`none` = `NaN`). -/
def addN : Option ℚ → Option ℚ → Option ℚ
  | some a, some b => some (a + b)
  | _, _ => none

/-- NaN-propagating multiplication. -/
def mulN : Option ℚ → Option ℚ → Option ℚ
  | some a, some b => some (a * b)
  | _, _ => none

/-- NaN-propagating division (divisors in the server are the nonzero
    constants 2 and 100). -/
def divN : Option ℚ → Option ℚ → Option ℚ
  | some a, some b => some (a / b)
  | _, _ => none

/-- `round2` lifted over NaN. -/
def round2N (a : Option ℚ) : Option ℚ := a.map round2

/-- Result of `calculateItem`: the original object (the `...item` spread)
    plus the coerced and computed numeric fields. -/
structure CalcItem where
  raw : JsVal
  qty : Option ℚ
  unit_price : Option ℚ
  gst_rate : Option ℚ
  taxable : Option ℚ
  cgst : Option ℚ
  sgst : Option ℚ
  total : Option ℚ
deriving Repr

/-- `calculateItem` from `server.js`.  Property access on `null`/`undefined`
    throws a `TypeError` (`none`); otherwise the function is total. -/
def calculateItem (item : JsVal) : Option CalcItem :=
  match item with
  | .null => none
  | .undefined => none
  | _ =>
    let qty := toNumber (jsOr (getPropD item "qty") (.num 0))
    let unitPrice := toNumber (jsOr (getPropD item "unit_price") (.num 0))
    let gstRate := toNumber (jsOr (getPropD item "gst_rate") (.num 0))
    let taxable := round2N (mulN qty unitPrice)
    let halfRate := divN gstRate (some 2)
    let cgst := round2N (divN (mulN taxable halfRate) (some 100))
    let sgst := round2N (divN (mulN taxable halfRate) (some 100))
    let total := round2N (addN (addN taxable cgst) sgst)
    some { raw := item, qty := qty, unit_price := unitPrice, gst_rate := gstRate,
           taxable := taxable, cgst := cgst, sgst := sgst, total := total }

/-- Totals block built by `buildQuoteSummary`. -/
structure Summary where
  subtotal : Option ℚ
  cgstTotal : Option ℚ
  sgstTotal : Option ℚ
  total : Option ℚ
deriving Repr, DecidableEq

/-- `buildQuoteSummary` from `server.js`: each component is a
    `reduce((sum, item) => sum + field, 0)` wrapped in `round2`. -/
def buildQuoteSummary (items : List CalcItem) : Summary :=
  let subtotal := round2N (items.foldl (fun s it => addN s it.taxable) (some 0))
  let cgstTotal := round2N (items.foldl (fun s it => addN s it.cgst) (some 0))
  let sgstTotal := round2N (items.foldl (fun s it => addN s it.sgst) (some 0))
  let total := round2N (addN (addN subtotal cgstTotal) sgstTotal)
  { subtotal := subtotal, cgstTotal := cgstTotal, sgstTotal := sgstTotal, total := total }

/-- Whitespace accepted by the JSON grammar. -/
def jsonWs (c : Char) : Bool :=
  c == ' ' || c == '\t' || c == '\n' || c == '\r'

/-- Strip an expected literal suffix (for `null` / `true` / `false`). -/
def stripLit : List Char → List Char → Option (List Char)
  | [], cs => some cs
  | p :: ps, c :: cs => if c == p then stripLit ps cs else none
  | _ :: _, [] => none

/-- Is `c` a hexadecimal digit? -/
def isHexDigit (c : Char) : Bool :=
  c.isDigit || ('a' ≤ c && c ≤ 'f') || ('A' ≤ c && c ≤ 'F')

/-- Value of a hexadecimal digit. -/
def hexVal (c : Char) : Nat :=
  if c.isDigit then c.toNat - 48
  else if 'a' ≤ c && c ≤ 'f' then c.toNat - 87
  else c.toNat - 55

/-- JSON string body after the opening quote (fuel-bounded because escape
    sequences consume two or six characters at a time). -/
def parseJsonStr : Nat → List Char → List Char → Option (String × List Char)
  | 0, _, _ => none
  | f + 1, acc, cs =>
    match cs with
    | [] => none
    | '"' :: r => some (String.mk acc.reverse, r)
    | '\\' :: e :: r =>
      if e == '"' then parseJsonStr f ('"' :: acc) r
      else if e == '\\' then parseJsonStr f ('\\' :: acc) r
      else if e == '/' then parseJsonStr f ('/' :: acc) r
      else if e == 'b' then parseJsonStr f (Char.ofNat 8 :: acc) r
      else if e == 'f' then parseJsonStr f (Char.ofNat 12 :: acc) r
      else if e == 'n' then parseJsonStr f ('\n' :: acc) r
      else if e == 'r' then parseJsonStr f ('\r' :: acc) r
      else if e == 't' then parseJsonStr f ('\t' :: acc) r
      else if e == 'u' then
        match r with
        | a :: b :: c :: d :: r2 =>
          if isHexDigit a && isHexDigit b && isHexDigit c && isHexDigit d then
            let n := ((hexVal a * 16 + hexVal b) * 16 + hexVal c) * 16 + hexVal d
            parseJsonStr f (Char.ofNat n :: acc) r2
          else none
        | _ => none
      else none
    | c :: r => if c.toNat ≥ 32 && c != '"' then parseJsonStr f (c :: acc) r else none

/-- JSON number: optional `-`, integer part with no leading zeros, optional
    fraction, optional exponent. -/
def parseJsonNum (cs : List Char) : Option (ℚ × List Char) :=
  let sgn : ℚ := match cs with
    | '-' :: _ => -1
    | _ => 1
  let cs0 := match cs with
    | '-' :: r => r
    | _ => cs
  let ip := cs0.takeWhile (·.isDigit)
  if ip.isEmpty then none
  else if ip.length > 1 && ip.headD '0' == '0' then none
  else
    let cs1 := cs0.drop ip.length
    let fp := match cs1 with
      | '.' :: r => r.takeWhile (·.isDigit)
      | _ => []
    let hasDot := match cs1 with
      | '.' :: _ => true
      | _ => false
    if hasDot && fp.isEmpty then none
    else
      let cs2 := if hasDot then (cs1.drop 1).drop fp.length else cs1
      let mant : ℚ := (digitsToNat ip : ℚ) + (digitsToNat fp : ℚ) / ((10 : ℚ) ^ fp.length)
      match cs2 with
      | 'e' :: r => parseJsonExp sgn mant r
      | 'E' :: r => parseJsonExp sgn mant r
      | _ => some (sgn * mant, cs2)
where
  parseJsonExp (sgn mant : ℚ) (r : List Char) : Option (ℚ × List Char) :=
    let esgn : Int := match r with
      | '-' :: _ => -1
      | _ => 1
    let r2 := match r with
      | '-' :: t => t
      | '+' :: t => t
      | _ => r
    let ed := r2.takeWhile (·.isDigit)
    if ed.isEmpty then none
    else some (sgn * mant * (10 : ℚ) ^ (esgn * (digitsToNat ed : Int)), r2.drop ed.length)

/-- What the JSON reader is currently parsing: a value, the rest of an
    array after its first element, or the members of an object. -/
inductive JTask where
  | value
  | arrayRest (acc : List JsVal)
  | objectRest (acc : List (String × JsVal))

/-- Recursive-descent JSON reader (fuel-bounded; the caller supplies enough
    fuel for any input of the given length).  Numbers are kept as exact
    rationals. -/
def parseJsonT : Nat → JTask → List Char → Option (JsVal × List Char)
  | 0, _, _ => none
  | f + 1, .value, cs =>
    let cs := cs.dropWhile jsonWs
    match cs with
    | [] => none
    | c :: rest =>
      if c == 'n' then (stripLit ['u', 'l', 'l'] rest).map (fun r => (JsVal.null, r))
      else if c == 't' then (stripLit ['r', 'u', 'e'] rest).map (fun r => (JsVal.bool true, r))
      else if c == 'f' then (stripLit ['a', 'l', 's', 'e'] rest).map (fun r => (JsVal.bool false, r))
      else if c == '"' then (parseJsonStr (rest.length + 1) [] rest).map (fun p => (JsVal.str p.1, p.2))
      else if c == '[' then
        let rest2 := rest.dropWhile jsonWs
        match rest2 with
        | ']' :: r => some (JsVal.arr [], r)
        | _ =>
          match parseJsonT f .value rest2 with
          | some (v, r) => parseJsonT f (.arrayRest [v]) r
          | none => none
      else if c.toNat == 123 then
        let rest2 := rest.dropWhile jsonWs
        match rest2 with
        | c2 :: r =>
          if c2.toNat == 125 then some (JsVal.obj [], r)
          else parseJsonT f (.objectRest []) rest2
        | [] => none
      else (parseJsonNum cs).map (fun p => (JsVal.num p.1, p.2))
  | f + 1, .arrayRest acc, cs =>
    let cs := cs.dropWhile jsonWs
    match cs with
    | ']' :: r => some (JsVal.arr acc.reverse, r)
    | ',' :: r =>
      match parseJsonT f .value r with
      | some (v, r2) => parseJsonT f (.arrayRest (v :: acc)) r2
      | none => none
    | _ => none
  | f + 1, .objectRest acc, cs =>
    let cs := cs.dropWhile jsonWs
    match cs with
    | '"' :: r =>
      match parseJsonStr (r.length + 1) [] r with
      | some (k, r2) =>
        match (r2.dropWhile jsonWs) with
        | ':' :: r3 =>
          match parseJsonT f .value r3 with
          | some (v, r4) =>
            let r5 := r4.dropWhile jsonWs
            match r5 with
            | ',' :: r6 => parseJsonT f (.objectRest ((k, v) :: acc)) r6
            | c :: r6 =>
              if c.toNat == 125 then some (JsVal.obj (((k, v) :: acc).reverse), r6) else none
            | [] => none
          | none => none
        | _ => none
      | none => none
    | _ => none

/-- `JSON.parse`: parse one value, allow surrounding whitespace, reject
    trailing garbage.  `none` is a thrown `SyntaxError`. -/
def jsonParse (s : String) : Option JsVal :=
  match parseJsonT (2 * s.length + 4) .value s.toList with
  | some (v, rest) => if (rest.dropWhile jsonWs).isEmpty then some v else none
  | none => none

/-- Is this parse result an array?  (`Array.isArray(parsed)`.) -/
def isSomeArr : Option JsVal → Bool
  | some (.arr _) => true
  | _ => false

/-- A JavaScript exception escaping one of the server's helpers. -/
inductive JsErr where
  | thrown (msg : String)
  | typeErr
deriving Repr, DecidableEq

/-- `String(item.name || '').trim()` for a calculated item (the `...item`
    spread keeps the original `name`). -/
def itemName (c : CalcItem) : String :=
  jsTrim (jsToString (jsOr (getPropD c.raw "name") (.str "")))

/-- `parseItems` from `server.js`:
    `JSON.parse(itemsJson || '[]')`, `Invalid item data` on a parse error,
    map `calculateItem` over an array (anything else becomes `[]`),
    then the emptiness check, the any-name check, and the blank-name
    filter, in that order. -/
def parseItems (itemsJson : String) : Except JsErr (List CalcItem) :=
  let raw := if itemsJson == "" then "[]" else itemsJson
  match jsonParse raw with
  | none => .error (.thrown "Invalid item data in request.")
  | some parsed =>
    let itemsO : Option (List CalcItem) :=
      match parsed with
      | .arr l => l.mapM calculateItem
      | _ => some []
    match itemsO with
    | none => .error .typeErr
    | some items =>
      if items.isEmpty then .error (.thrown "Please add at least one item.")
      else if !(items.any (fun c => itemName c != "")) then
        .error (.thrown "Please provide item name.")
      else .ok (items.filter (fun c => itemName c != ""))

/-- One normalized proposal row. -/
structure PropRow where
  sr_no : String
  description : String
  unit : String
  specification : String
  qty : String
  make : String
deriving Repr, DecidableEq

/-- `normalizeProposalTemplateRow` from `server.js`. -/
def normalizeProposalTemplateRow (row : JsVal) (index : Nat) : PropRow :=
  { sr_no := text (jsOr (getPropD row "sr_no") (.num ((index : ℚ) + 1)))
    description := text (getPropD row "description")
    unit := text (getPropD row "unit")
    specification := text (getPropD row "specification")
    qty := text (getPropD row "qty")
    make := text (getPropD row "make") }

/-- `getDefaultProposalItems`: the configured template, normalized.  The
    module-level `proposalTemplate` array is passed explicitly. -/
def getDefaultProposalItems (proposalTemplate : List JsVal) : List PropRow :=
  proposalTemplate.enum.map (fun p => normalizeProposalTemplateRow p.2 p.1)

/-- The submitted override rows: `proposalItemsJson ? JSON.parse(...) : []`,
    any parse failure or non-array replaced by `[]`. -/
def submittedRows (proposalItemsJson : String) : List JsVal :=
  if proposalItemsJson == "" then []
  else
    match jsonParse proposalItemsJson with
    | some (.arr l) => l
    | _ => []

/-- Merge of one template default with `parsed[idx] || {}`:
    `qty`/`make` are taken from the submitted row exactly when the key is
    present there (`hasOwnProperty`). -/
def mergeProposalRow (parsed : List JsVal) (idx : Nat) (baseRow : PropRow) : PropRow :=
  let row := jsOr ((parsed[idx]?).getD .undefined) (.obj [])
  let qtyValue := if hasOwn row "qty" then text (getPropD row "qty") else baseRow.qty
  let makeValue := if hasOwn row "make" then text (getPropD row "make") else baseRow.make
  { sr_no := baseRow.sr_no
    description := baseRow.description
    unit := baseRow.unit
    specification := baseRow.specification
    qty := qtyValue
    make := makeValue }

/-- `parseProposalItems` from `server.js`. -/
def parseProposalItems (proposalTemplate : List JsVal) (proposalItemsJson : String) :
    List PropRow :=
  let defaults := getDefaultProposalItems proposalTemplate
  if defaults.isEmpty then []
  else
    let parsed := submittedRows proposalItemsJson
    defaults.enum.map (fun p => mergeProposalRow parsed p.1 p.2)

/-- `String(id).padStart(n, c)`. -/
def padStart (n : Nat) (c : Char) (s : String) : String :=
  if s.length ≥ n then s else String.mk (List.replicate (n - s.length) c) ++ s

/-- `new Date(s).getFullYear()` for the ISO `YYYY-MM-DD` strings the form
    submits (date-only ISO strings are interpreted at UTC; the model reads
    the leading year digits).  `none` is the `NaN` of an invalid date. -/
def jsDateYear (s : String) : Option Nat :=
  let ds := s.toList.takeWhile (·.isDigit)
  if ds.isEmpty then none else some (digitsToNat ds)

/-- `generateQuoteNumber` from `server.js`:
    `` `Q-${year}-${String(id).padStart(4, '0')}` ``. -/
def generateQuoteNumber (id : Nat) (quoteDate : String) : String :=
  let yearStr := match jsDateYear quoteDate with
    | some y => toString y
    | none => "NaN"
  "Q-" ++ yearStr ++ "-" ++ padStart 4 '0' (toString id)

/-- JSON string escaping (`JSON.stringify` on a string). -/
def jsonEscapeChar (c : Char) : String :=
  if c == '"' then "\\\""
  else if c == '\\' then "\\\\"
  else if c == '\n' then "\\n"
  else if c == '\r' then "\\r"
  else if c == '\t' then "\\t"
  else if c.toNat == 8 then "\\b"
  else if c.toNat == 12 then "\\f"
  else if c.toNat < 32 then
    "\\u00" ++ String.mk [(Nat.digitChar (c.toNat / 16)), (Nat.digitChar (c.toNat % 16))]
  else String.mk [c]

/-- `JSON.stringify` of a string value. -/
def jsonQuote (s : String) : String :=
  "\"" ++ s.toList.foldl (fun acc c => acc ++ jsonEscapeChar c) "" ++ "\""

/-- `JSON.stringify` of one proposal row (keys in insertion order, as the
    object literal in `parseProposalItems` creates them). -/
def stringifyPropRow (r : PropRow) : String :=
  "\x7b\"sr_no\":" ++ jsonQuote r.sr_no ++
  ",\"description\":" ++ jsonQuote r.description ++
  ",\"unit\":" ++ jsonQuote r.unit ++
  ",\"specification\":" ++ jsonQuote r.specification ++
  ",\"qty\":" ++ jsonQuote r.qty ++
  ",\"make\":" ++ jsonQuote r.make ++ "\x7d"

/-- `JSON.stringify(proposalItems)`. -/
def stringifyPropRows (l : List PropRow) : String :=
  "[" ++ String.intercalate "," (l.map stringifyPropRow) ++ "]"

/-- A row of the `quotes` table. -/
structure QuoteRow where
  id : Nat
  quote_no : Option String
  quote_date : String
  customer_name : String
  customer_phone : Option String
  customer_email : Option String
  customer_address : Option String
  customer_gstin : Option String
  proposal_items_json : String
  subtotal : Option ℚ
  cgst_total : Option ℚ
  sgst_total : Option ℚ
  total : Option ℚ
  notes : Option String
deriving Repr

/-- A row of the `quote_items` table. -/
structure ItemRow where
  quote_id : Nat
  product_id : JsVal
  name : JsVal
  description : JsVal
  hsn : JsVal
  unit : JsVal
  qty : Option ℚ
  unit_price : Option ℚ
  gst_rate : Option ℚ
  taxable : Option ℚ
  cgst : Option ℚ
  sgst : Option ℚ
  total : Option ℚ
deriving Repr

/-- The persistent store: the two tables and the `quotes` auto-increment
    counter. -/
structure Db where
  quotes : List QuoteRow
  items : List ItemRow
  nextId : Nat
deriving Repr

/-- The values of an `INSERT INTO quote_items` row for one calculated item
    (`item.product_id || null`, `item.description || null`,
    `item.hsn || null`, `item.unit || null` read through the spread). -/
def mkItemRow (qid : Nat) (c : CalcItem) : ItemRow :=
  { quote_id := qid
    product_id := jsOr (getPropD c.raw "product_id") .null
    name := getPropD c.raw "name"
    description := jsOr (getPropD c.raw "description") .null
    hsn := jsOr (getPropD c.raw "hsn") .null
    unit := jsOr (getPropD c.raw "unit") .null
    qty := c.qty
    unit_price := c.unit_price
    gst_rate := c.gst_rate
    taxable := c.taxable
    cgst := c.cgst
    sgst := c.sgst
    total := c.total }

/-- The request body of a quotation save.  Form fields arrive as strings;
    `""` plays the role of an absent/falsy field (exactly the values the
    server's `||` defaults collapse together). -/
structure Body where
  items_json : String
  proposal_items_json : String
  quote_date : String
  customer_name : String
  customer_phone : String
  customer_email : String
  customer_address : String
  customer_gstin : String
  notes : String
deriving Repr

/-- `x || null` on a form string. -/
def strOrNull (s : String) : Option String :=
  if s == "" then none else some s

/-- Apply an update to every `quotes` row with the given id
    (`UPDATE quotes ... WHERE id = ?`). -/
def updateQuoteRows (db : Db) (i : Nat) (f : QuoteRow → QuoteRow) : Db :=
  { db with quotes := db.quotes.map (fun r => if r.id == i then f r else r) }

/-- `SELECT id, quote_no FROM quotes WHERE id = ?`, destructured to the
    first row or `undefined`. -/
def findQuote (db : Db) (i : Nat) : Option QuoteRow :=
  db.quotes.find? (fun r => r.id == i)

/-- The `UPDATE quotes SET ...` field list of the edit path (everything but
    `id` and `quote_no`). -/
def updateHeaderFields (quoteDate customerName : String) (body : Body)
    (pj : String) (s : Summary) (r : QuoteRow) : QuoteRow :=
  { r with
    quote_date := quoteDate
    customer_name := customerName
    customer_phone := strOrNull body.customer_phone
    customer_email := strOrNull body.customer_email
    customer_address := strOrNull body.customer_address
    customer_gstin := strOrNull body.customer_gstin
    proposal_items_json := pj
    subtotal := s.subtotal
    cgst_total := s.cgstTotal
    sgst_total := s.sgstTotal
    total := s.total
    notes := strOrNull body.notes }

/-- The freshly inserted header row of the new-quote path (`quote_no` is
    inserted as `NULL`). -/
def insertHeaderRow (newId : Nat) (quoteDate customerName : String) (body : Body)
    (pj : String) (s : Summary) : QuoteRow :=
  { id := newId
    quote_no := none
    quote_date := quoteDate
    customer_name := customerName
    customer_phone := strOrNull body.customer_phone
    customer_email := strOrNull body.customer_email
    customer_address := strOrNull body.customer_address
    customer_gstin := strOrNull body.customer_gstin
    proposal_items_json := pj
    subtotal := s.subtotal
    cgst_total := s.cgstTotal
    sgst_total := s.sgstTotal
    total := s.total
    notes := strOrNull body.notes }

/-- The per-item `INSERT INTO quote_items` loop.  `oracle n = true` makes the
    `n`-th query of this save fail (a constraint violation or connection
    loss); the counter threads through in execution order. -/
def insertItemRows (oracle : Nat → Bool) :
    Nat → Db → Nat → List CalcItem → Except String (Db × Nat)
  | n, conn, _, [] => .ok (conn, n)
  | n, conn, qid, c :: rest =>
    if oracle n then .error "Database error."
    else insertItemRows oracle (n + 1) { conn with items := conn.items ++ [mkItemRow qid c] }
      qid rest

/-- The body of `saveQuote`'s `try` block: the queries between
    `beginTransaction` and `commit`, on the connection's view `conn` of the
    store, returning the quote id, the view to commit, and the next query
    number. -/
def saveQuoteTx (oracle : Nat → Bool) (db : Db) (items : List CalcItem)
    (quoteDate customerName : String) (body : Body) (pj : String) (s : Summary)
    (finalQuoteId : Nat) : Except String (Nat × Db × Nat) :=
  if finalQuoteId == 0 then
    -- INSERT header
    if oracle 0 then .error "Database error."
    else
      let newId := db.nextId
      let conn : Db := { db with
        quotes := db.quotes ++ [insertHeaderRow newId quoteDate customerName body pj s]
        nextId := db.nextId + 1 }
      -- UPDATE quotes SET quote_no = ...
      if oracle 1 then .error "Database error."
      else
        let conn := updateQuoteRows conn newId
          (fun r => { r with quote_no := some (generateQuoteNumber newId quoteDate) })
        match insertItemRows oracle 2 conn newId items with
        | .ok (conn2, n) => .ok (newId, conn2, n)
        | .error e => .error e
  else
    -- SELECT id, quote_no FROM quotes WHERE id = ?
    if oracle 0 then .error "Database error."
    else
      match findQuote db finalQuoteId with
      | none => .error "Quote not found."
      | some existingQuote =>
        -- UPDATE quotes SET ... WHERE id = ?
        if oracle 1 then .error "Database error."
        else
          let conn := updateQuoteRows db finalQuoteId
            (updateHeaderFields quoteDate customerName body pj s)
          let afterNo : Except String (Db × Nat) :=
            if existingQuote.quote_no.isNone then
              if oracle 2 then .error "Database error."
              else .ok (updateQuoteRows conn finalQuoteId
                (fun r => { r with
                  quote_no := some (generateQuoteNumber finalQuoteId quoteDate) }), 3)
            else .ok (conn, 2)
          match afterNo with
          | .error e => .error e
          | .ok (conn2, n) =>
            -- DELETE FROM quote_items WHERE quote_id = ?
            if oracle n then .error "Database error."
            else
              let conn3 : Db := { conn2 with
                items := conn2.items.filter (fun it => it.quote_id != finalQuoteId) }
              match insertItemRows oracle (n + 1) conn3 finalQuoteId items with
              | .ok (conn4, n2) => .ok (finalQuoteId, conn4, n2)
              | .error e => .error e

/-- `saveQuote` from `server.js`.  `today` stands for
    `new Date().toISOString().slice(0, 10)`; `quoteId = 0` is the falsy
    `Number(quoteId || 0)` of a new quote.  The second component is the
    store after the save: on any error the transaction rolls back and the
    store is the argument `db` unchanged; the final `commit` is itself a
    query that can fail. -/
def saveQuote (db : Db) (oracle : Nat → Bool) (proposalTemplate : List JsVal)
    (today : String) (body : Body) (quoteId : Nat) : Except String Nat × Db :=
  match parseItems (if body.items_json == "" then "[]" else body.items_json) with
  | .error (.thrown m) => (.error m, db)
  | .error .typeErr => (.error "TypeError", db)
  | .ok items =>
    let proposalItems := parseProposalItems proposalTemplate
      (if body.proposal_items_json == "" then "[]" else body.proposal_items_json)
    let pj := stringifyPropRows proposalItems
    let s := buildQuoteSummary items
    let quoteDate := if body.quote_date == "" then today else body.quote_date
    let customerName := jsTrim body.customer_name
    if customerName == "" then (.error "Customer name is required.", db)
    else
      match saveQuoteTx oracle db items quoteDate customerName body pj s quoteId with
      | .ok (qid, conn, n) =>
        -- connection.commit()
        if oracle n then (.error "Database error.", db)
        else (.ok qid, conn)
      | .error e => (.error e, db)

/-- A column spec handed to `drawTable` (`key`, `label`, `width`, optional
    `align`). -/
structure Column where
  key : String
  label : String
  width : ℚ
  align : Option String := none
deriving Repr

/-- The page geometry and text-measuring oracle of the PDF document:
    `heightOfString text width` is `doc.heightOfString(text, { width })`. -/
structure DocCfg where
  pageHeight : ℚ
  marginTop : ℚ
  marginBottom : ℚ
  heightOfString : String → ℚ → ℚ

/-- Drawing events `drawTable` emits on the paged canvas, in order. -/
inductive Ev where
  | addPage
  | titleRow (title : String)
  | headerRow
  | rowCells (texts : List String) (height : ℚ)
deriving Repr

/-- `text(row[col.key] || '')`: the cell text, measured and drawn. -/
def cellText (row : JsVal) (col : Column) : String :=
  text (jsOr (getPropD row col.key) (.str ""))

/-- `rowValues` of one data row. -/
def rowValuesOf (columns : List Column) (row : JsVal) : List String :=
  columns.map (cellText row)

/-- `Math.max(24, ...rowValues.map(cellHeight + 8))`: the row height. -/
def rowHeightOf (cfg : DocCfg) (columns : List Column) (row : JsVal) : ℚ :=
  ((rowValuesOf columns row).zip columns).foldl
    (fun m p => max m (cfg.heightOfString p.1 (p.2.width - 8) + 8)) 24

/-- The `rows.forEach` loop of `drawTable`: page-break check, then draw, for
    each row; returns the cursor and the emitted events. -/
def drawRows (cfg : DocCfg) (title : String) (drawTitleOnNewPage : Bool)
    (columns : List Column) (pageBottom : ℚ) : ℚ → List JsVal → ℚ × List Ev
  | y, [] => (y, [])
  | y, row :: rest =>
    let vals := rowValuesOf columns row
    let rowHeight := rowHeightOf cfg columns row
    if y + rowHeight > pageBottom then
      let titleRepeated := title != "" && drawTitleOnNewPage
      let brk : List Ev :=
        [Ev.addPage] ++ (if titleRepeated then [Ev.titleRow title] else []) ++ [Ev.headerRow]
      let y1 := cfg.marginTop + (if titleRepeated then (24 : ℚ) else 0) + 24
      let next := drawRows cfg title drawTitleOnNewPage columns pageBottom (y1 + rowHeight) rest
      (next.1, brk ++ [Ev.rowCells vals rowHeight] ++ next.2)
    else
      let next := drawRows cfg title drawTitleOnNewPage columns pageBottom (y + rowHeight) rest
      (next.1, Ev.rowCells vals rowHeight :: next.2)

/-- `drawTable` from `server.js`: title block (with its own fit check),
    header block (with its fit check and optional title repetition), then
    the rows loop; returns the cursor `y` after the last row and the events
    drawn.  `title = ""` is the falsy absent title. -/
def drawTable (cfg : DocCfg) (title : String) (columns : List Column)
    (rows : List JsVal) (startY : ℚ) (drawTitleOnNewPage : Bool := true) :
    ℚ × List Ev :=
  let pageBottom := cfg.pageHeight - cfg.marginBottom
  let titleHeight : ℚ := if title != "" then 24 else 0
  let headerHeight : ℚ := 24
  let step1 : ℚ × List Ev :=
    if title != "" then
      if startY + titleHeight + headerHeight > pageBottom then
        (cfg.marginTop + titleHeight, [Ev.addPage, Ev.titleRow title])
      else (startY + titleHeight, [Ev.titleRow title])
    else (startY, [])
  let step2 : ℚ × List Ev :=
    if step1.1 + headerHeight > pageBottom then
      if title != "" && drawTitleOnNewPage then
        (cfg.marginTop + titleHeight + headerHeight,
          step1.2 ++ [Ev.addPage, Ev.titleRow title, Ev.headerRow])
      else (cfg.marginTop + headerHeight, step1.2 ++ [Ev.addPage, Ev.headerRow])
    else (step1.1 + headerHeight, step1.2 ++ [Ev.headerRow])
  let step3 := drawRows cfg title drawTitleOnNewPage columns pageBottom step2.1 rows
  (step3.1, step2.2 ++ step3.2)

/-- Spec-side summation (the claims' "sum of" a field list), to be compared
    with the `reduce` folds of `buildQuoteSummary`. -/
def sumN (l : List (Option ℚ)) : Option ℚ := l.foldr addN (some 0)

/-- The record `calculateItem` builds on its non-throwing branch (the same
    lets as in `calculateItem`, named so theorems can speak about the result
    compactly). -/
def calcFields (item : JsVal) : CalcItem :=
  let qty := toNumber (jsOr (getPropD item "qty") (.num 0))
  let unitPrice := toNumber (jsOr (getPropD item "unit_price") (.num 0))
  let gstRate := toNumber (jsOr (getPropD item "gst_rate") (.num 0))
  let taxable := round2N (mulN qty unitPrice)
  let halfRate := divN gstRate (some 2)
  let cgst := round2N (divN (mulN taxable halfRate) (some 100))
  let sgst := round2N (divN (mulN taxable halfRate) (some 100))
  let total := round2N (addN (addN taxable cgst) sgst)
  { raw := item, qty := qty, unit_price := unitPrice, gst_rate := gstRate,
    taxable := taxable, cgst := cgst, sgst := sgst, total := total }

/-!  ## Theorems  -/

theorem round2_floor_form (v : ℚ) :
    round2 v = (⌊v * 100 + (1/2 + 100 * jsEps)⌋ : ℚ) / 100 := by
  have h : (v + jsEps) * 100 + 1/2 = v * 100 + (1/2 + 100 * jsEps) := by ring
  unfold round2 jsRound
  rw [h]

theorem floor_add_small (z : ℤ) (c : ℚ) (h0 : 0 ≤ c) (h1 : c < 1) :
    ⌊(z : ℚ) + c⌋ = z := by
  rw [Int.floor_eq_iff]
  exact ⟨by linarith, by linarith⟩

/-- C1: `round2 v` is `⌊v * 100 + ε⌋ / 100` for the correction
    `ε = 1/2 + 100 · 2⁻⁵²` (the `Math.round` half plus the scaled
    `Number.EPSILON`), which rounds half-cent values away from zero for every
    positive value; in particular `round2 2.005 = 2.01`, `round2 0 = 0` and
    `round2 (-0) = 0` (the rational embedding identifies `-0` with `0`). -/
theorem round2_spec :
    (∀ v : ℚ, round2 v = (⌊v * 100 + (1/2 + 100 * jsEps)⌋ : ℚ) / 100) ∧
    (∀ n : ℕ, round2 ((2 * n + 1) / 200) = (n + 1) / 100) ∧
    round2 (2005/1000) = 201/100 ∧ round2 0 = 0 ∧ round2 (-0) = 0 := by
  refine ⟨round2_floor_form, fun n => ?_, by norm_num [round2, jsRound, jsEps],
    by norm_num [round2, jsRound, jsEps], by norm_num [round2, jsRound, jsEps]⟩
  rw [round2_floor_form]
  have harg : (2 * (n : ℚ) + 1) / 200 * 100 + (1/2 + 100 * jsEps)
      = ((n + 1 : ℤ) : ℚ) + 100 * jsEps := by
    push_cast
    ring
  rw [harg, floor_add_small (n + 1) (100 * jsEps) (by norm_num [jsEps]) (by norm_num [jsEps])]
  push_cast
  ring

theorem calculateItem_eq (it : JsVal) (hn : it ≠ .null) (hu : it ≠ .undefined) :
    calculateItem it = some (calcFields it) := by
  cases it with
  | undefined => exact absurd rfl hu
  | null => exact absurd rfl hn
  | bool b => rfl
  | num q => rfl
  | nan => rfl
  | str s => rfl
  | arr l => rfl
  | obj fs => rfl

theorem toNumber_jsOr_num (q : ℚ) : toNumber (jsOr (.num q) (.num 0)) = some q := by
  by_cases h : q = 0 <;> simp [jsOr, truthy, h, toNumber]

theorem mulN_none_left (b : Option ℚ) : mulN none b = none := by cases b <;> rfl

theorem divN_none_left (b : Option ℚ) : divN none b = none := by cases b <;> rfl

theorem addN_none_left (b : Option ℚ) : addN none b = none := by cases b <;> rfl

/-- C2, counterexample to the claim as stated: an item whose `qty` is the
    non-numeric string `"abc"` does not get `qty` treated as `0`; the
    coercion `Number('abc')` is `NaN` and the computed `taxable` is `NaN`
    (`some none` below), not the numeric `0` the claim requires. -/
theorem calculateItem_nonnumeric_string_not_zero :
    ((calculateItem (.obj [("name", .str "x"), ("qty", .str "abc"),
        ("unit_price", .num 10), ("gst_rate", .num 18)])).map CalcItem.taxable
      = some none) ∧
    ((calculateItem (.obj [("name", .str "x"), ("qty", .str "abc"),
        ("unit_price", .num 10), ("gst_rate", .num 18)])).map CalcItem.taxable
      ≠ some (some 0)) := by
  exact ⟨by decide, by decide⟩

/-- C2 (amended): `calculateItem` never throws on any item value other than
    `null`/`undefined` (on which property access throws a `TypeError`), and
    coerces `qty`, `unit_price` and `gst_rate` with `Number(field || 0)`:
    a missing or otherwise falsy field (absent, `null`, `''`, `0`, `false`,
    `NaN`) is treated as `0` and yields numeric outputs computed by the
    documented formulas, but a non-numeric string coerces to `NaN`, and that
    `NaN` propagates into `taxable`, `cgst`, `sgst` and `total` rather than
    being treated as `0`. -/
theorem calculateItem_coercion_spec :
    (∀ it : JsVal, it ≠ .null → it ≠ .undefined → ∃ c : CalcItem,
      calculateItem it = some c ∧
      c.qty = toNumber (jsOr (getPropD it "qty") (.num 0)) ∧
      c.unit_price = toNumber (jsOr (getPropD it "unit_price") (.num 0)) ∧
      c.gst_rate = toNumber (jsOr (getPropD it "gst_rate") (.num 0)) ∧
      c.taxable = round2N (mulN c.qty c.unit_price) ∧
      c.cgst = round2N (divN (mulN c.taxable (divN c.gst_rate (some 2))) (some 100)) ∧
      c.sgst = c.cgst ∧
      c.total = round2N (addN (addN c.taxable c.cgst) c.sgst)) ∧
    (∀ v : JsVal, truthy v = false → toNumber (jsOr v (.num 0)) = some 0) ∧
    (∀ it : JsVal, it ≠ .null → it ≠ .undefined →
      toNumber (jsOr (getPropD it "qty") (.num 0)) = none → ∃ c : CalcItem,
      calculateItem it = some c ∧
      c.taxable = none ∧ c.cgst = none ∧ c.sgst = none ∧ c.total = none) ∧
    (∀ s : String, strToNum s = none → toNumber (jsOr (.str s) (.num 0)) = none) := by
  refine ⟨?_, ?_, ?_, ?_⟩
  · intro it hn hu
    exact ⟨_, calculateItem_eq it hn hu, rfl, rfl, rfl, rfl, rfl, rfl, rfl⟩
  · intro v hv
    simp [jsOr, hv, toNumber]
  · intro it hn hu hq
    refine ⟨_, calculateItem_eq it hn hu, ?_, ?_, ?_, ?_⟩ <;>
      simp [calcFields, hq, mulN_none_left, divN_none_left, addN_none_left, round2N]
  · intro s hs
    by_cases h : s = ""
    · subst h
      exact absurd hs (by decide)
    · simp [jsOr, truthy, h, toNumber, hs]

/-- C3: for every item whose `qty`, `unit_price` and `gst_rate` fields are
    numeric and non-negative, `calculateItem` satisfies
    `taxable = round2 (qty * unit_price)`,
    `cgst = sgst = round2 (taxable * (gst_rate / 2) / 100)` exactly, and
    `total = round2 (taxable + cgst + sgst)`. -/
theorem calculateItem_tax_invariants (it : JsVal) (q u g : ℚ)
    (hq0 : 0 ≤ q) (hu0 : 0 ≤ u) (hg0 : 0 ≤ g)
    (hn : it ≠ .null) (hun : it ≠ .undefined)
    (hq : getPropD it "qty" = .num q)
    (hup : getPropD it "unit_price" = .num u)
    (hg : getPropD it "gst_rate" = .num g) :
    ∃ c : CalcItem, calculateItem it = some c ∧
      c.taxable = some (round2 (q * u)) ∧
      c.cgst = some (round2 (round2 (q * u) * (g / 2) / 100)) ∧
      c.sgst = c.cgst ∧
      c.total = some (round2 (round2 (q * u)
        + round2 (round2 (q * u) * (g / 2) / 100)
        + round2 (round2 (q * u) * (g / 2) / 100))) := by
  refine ⟨_, calculateItem_eq it hn hun, ?_, ?_, rfl, ?_⟩ <;>
    simp only [calcFields, hq, hup, hg, toNumber_jsOr_num] <;>
    simp [mulN, divN, addN, round2N, add_assoc]

/-- Witness for `calculateItem_coercion_spec` at a concrete item with a
    non-numeric `qty` string. -/
theorem calculateItem_coercion_spec_witness :
    ∃ c : CalcItem, calculateItem (.obj [("name", .str "x"), ("qty", .str "abc"),
      ("unit_price", .num 10), ("gst_rate", .num 18)]) = some c ∧
      c.taxable = none ∧ c.cgst = none ∧ c.sgst = none ∧ c.total = none := by
  obtain ⟨-, -, h3, -⟩ := calculateItem_coercion_spec
  exact h3 (.obj [("name", .str "x"), ("qty", .str "abc"), ("unit_price", .num 10),
    ("gst_rate", .num 18)]) (fun h => JsVal.noConfusion h) (fun h => JsVal.noConfusion h)
    (by decide)

/-- Witness for `calculateItem_tax_invariants` at `qty = 2`,
    `unit_price = 100`, `gst_rate = 18`. -/
theorem calculateItem_tax_invariants_witness :
    ∃ c : CalcItem, calculateItem (.obj [("qty", .num 2), ("unit_price", .num 100),
      ("gst_rate", .num 18)]) = some c ∧
      c.taxable = some (round2 (2 * 100)) ∧
      c.cgst = some (round2 (round2 (2 * 100) * (18 / 2) / 100)) ∧
      c.sgst = c.cgst ∧
      c.total = some (round2 (round2 (2 * 100)
        + round2 (round2 (2 * 100) * (18 / 2) / 100)
        + round2 (round2 (2 * 100) * (18 / 2) / 100))) := by
  exact calculateItem_tax_invariants
    (.obj [("qty", .num 2), ("unit_price", .num 100), ("gst_rate", .num 18)]) 2 100 18
    (by norm_num) (by norm_num) (by norm_num)
    (fun h => JsVal.noConfusion h) (fun h => JsVal.noConfusion h) rfl rfl rfl

theorem addN_some_zero (a : Option ℚ) : addN (some 0) a = a := by
  cases a <;> simp [addN]

theorem addN_assoc (a b c : Option ℚ) : addN (addN a b) c = addN a (addN b c) := by
  cases a <;> cases b <;> cases c <;> simp [addN, add_assoc]

theorem foldl_addN (l : List (Option ℚ)) (s : Option ℚ) :
    l.foldl addN s = addN s (sumN l) := by
  induction l generalizing s with
  | nil =>
    cases s <;> simp [sumN, addN]
  | cons x xs ih =>
    simp only [List.foldl_cons, sumN, List.foldr_cons]
    rw [ih, ← addN_assoc]
    rfl

/-- C4: `buildQuoteSummary` returns `subtotal = round2 (Σ taxable)`,
    `cgstTotal = round2 (Σ cgst)`, `sgstTotal = round2 (Σ sgst)` — each sum
    rounded independently after the per-line-rounded components are summed —
    and `total = round2 (subtotal + cgstTotal + sgstTotal)`. -/
theorem buildQuoteSummary_spec (items : List CalcItem) :
    (buildQuoteSummary items).subtotal = round2N (sumN (items.map CalcItem.taxable)) ∧
    (buildQuoteSummary items).cgstTotal = round2N (sumN (items.map CalcItem.cgst)) ∧
    (buildQuoteSummary items).sgstTotal = round2N (sumN (items.map CalcItem.sgst)) ∧
    (buildQuoteSummary items).total = round2N (addN
      (addN ((buildQuoteSummary items).subtotal) ((buildQuoteSummary items).cgstTotal))
      ((buildQuoteSummary items).sgstTotal)) := by
  have key : ∀ f : CalcItem → Option ℚ,
      items.foldl (fun s it => addN s (f it)) (some 0) = sumN (items.map f) := by
    intro f
    rw [← List.foldl_map, foldl_addN, addN_some_zero]
  refine ⟨?_, ?_, ?_, rfl⟩ <;>
    simp only [buildQuoteSummary, key]

/-- C5, counterexample to the claim as stated: the payload `"5"` is valid
    JSON but not an array, yet `parseItems` does not fail with the
    "malformed input" error — the non-array result is replaced by `[]` and
    the emptiness check fires first, so the error is "missing items". -/
theorem parseItems_nonarray_not_malformed :
    parseItems "5" = .error (.thrown "Please add at least one item.") ∧
    (jsonParse "5").isSome = true ∧ isSomeArr (jsonParse "5") = false := by
  exact ⟨rfl, rfl, rfl⟩

/-- C5 (amended): `parseItems` fails with the "malformed input" error iff
    the (defaulted) raw payload is not valid JSON; a valid-JSON non-array
    payload is treated as an empty list and so fails with the "missing
    items" error instead.  `parseItems '[]'` fails with "missing items",
    `parseItems 'not json'` with "malformed input", and
    `parseItems '[{"name":"  "}]'` with "missing name"; on success the
    result is the calculated items with blank-name items dropped, and the
    emptiness and name checks run before that filtering, so an all-blank
    submission with at least one item fails with "missing name". -/
theorem parseItems_error_spec :
    (∀ s : String,
      (parseItems s = .error (.thrown "Invalid item data in request.") ↔
        jsonParse (if s == "" then "[]" else s) = none)) ∧
    parseItems "[]" = .error (.thrown "Please add at least one item.") ∧
    parseItems "not json" = .error (.thrown "Invalid item data in request.") ∧
    parseItems "[\x7b\"name\":\"  \"\x7d]" = .error (.thrown "Please provide item name.") ∧
    (∀ (s : String) (elems : List JsVal) (l : List CalcItem),
      jsonParse (if s == "" then "[]" else s) = some (.arr elems) →
      parseItems s = .ok l →
      ∃ items, elems.mapM calculateItem = some items ∧
        items ≠ [] ∧ (∃ c ∈ items, itemName c ≠ "") ∧
        l = items.filter (fun c => itemName c != "")) ∧
    (∀ (s : String) (elems : List JsVal) (items : List CalcItem),
      jsonParse (if s == "" then "[]" else s) = some (.arr elems) →
      elems.mapM calculateItem = some items → items ≠ [] →
      (∀ c ∈ items, itemName c = "") →
      parseItems s = .error (.thrown "Please provide item name.")) := by
  refine ⟨?_, rfl, rfl, rfl, ?_, ?_⟩
  · intro s
    constructor
    · intro h
      cases hj : jsonParse (if s == "" then "[]" else s) with
      | none => rfl
      | some v =>
        exfalso
        simp only [parseItems, hj] at h
        split at h
        · simp at h
        · split at h
          · simp at h
          · split at h <;> simp at h
    · intro h
      simp only [parseItems]
      rw [h]
  · intro s elems l hj hok
    simp only [parseItems, hj] at hok
    cases hm : List.mapM calculateItem elems with
    | none =>
      rw [hm] at hok
      exact absurd hok (by simp)
    | some items =>
      rw [hm] at hok
      have hok2 : (if items.isEmpty = true then
            (Except.error (JsErr.thrown "Please add at least one item.") :
              Except JsErr (List CalcItem))
          else if (!items.any fun c => itemName c != "") = true then
            Except.error (JsErr.thrown "Please provide item name.")
          else Except.ok (items.filter (fun c => itemName c != ""))) = Except.ok l := hok
      refine ⟨items, rfl, ?_⟩
      split at hok2
      · exact absurd hok2 (by simp)
      · split at hok2
        · exact absurd hok2 (by simp)
        · rename_i hempty hname
          refine ⟨by simpa using hempty, ?_, ?_⟩
          · have hany : items.any (fun c => itemName c != "") = true := by
              simpa using hname
            obtain ⟨c, hc, hcn⟩ := List.any_eq_true.mp hany
            exact ⟨c, hc, by simpa using hcn⟩
          · exact ((Except.ok.injEq _ _).mp hok2).symm
  · intro s elems items hj hm hne hblank
    have hempty : items.isEmpty = false := by
      cases items with
      | nil => exact absurd rfl hne
      | cons a t => rfl
    have hany : items.any (fun c => itemName c != "") = false := by
      rw [List.any_eq_false]
      intro c hc
      simp [hblank c hc]
    suffices h : (if items.isEmpty = true then
          (Except.error (JsErr.thrown "Please add at least one item.") :
            Except JsErr (List CalcItem))
        else if (!items.any fun c => itemName c != "") = true then
          Except.error (JsErr.thrown "Please provide item name.")
        else Except.ok (items.filter (fun c => itemName c != ""))) =
        Except.error (JsErr.thrown "Please provide item name.") by
      simp only [parseItems, hj]
      rw [hm]
      exact h
    rw [hempty, hany]
    rfl

/-- C6: `parseProposalItems` is total (it is a Lean function) and:
    an empty template yields `[]` regardless of the submission; the output
    length always equals the template length; entry `i` of the output merges
    template default `i` with submitted row `i` (`parsed[i] || {}`), taking
    `qty`/`make` from the submitted row exactly when the key is present
    there (`hasOwnProperty`) and the structural fields from the template;
    and a malformed or non-array submission is treated as empty, which
    leaves every template default unchanged. -/
theorem parseProposalItems_spec :
    (∀ json : String, parseProposalItems [] json = []) ∧
    (∀ (tmpl : List JsVal) (json : String),
      (parseProposalItems tmpl json).length = tmpl.length) ∧
    (∀ (tmpl : List JsVal) (json : String) (i : Nat) (base : PropRow),
      (getDefaultProposalItems tmpl)[i]? = some base →
      (parseProposalItems tmpl json)[i]? =
        some (mergeProposalRow (submittedRows json) i base)) ∧
    (∀ (parsed : List JsVal) (i : Nat) (base : PropRow),
      (mergeProposalRow parsed i base).sr_no = base.sr_no ∧
      (mergeProposalRow parsed i base).description = base.description ∧
      (mergeProposalRow parsed i base).unit = base.unit ∧
      (mergeProposalRow parsed i base).specification = base.specification ∧
      (mergeProposalRow parsed i base).qty =
        (if hasOwn (jsOr ((parsed[i]?).getD .undefined) (.obj [])) "qty" then
          text (getPropD (jsOr ((parsed[i]?).getD .undefined) (.obj [])) "qty") else base.qty) ∧
      (mergeProposalRow parsed i base).make =
        (if hasOwn (jsOr ((parsed[i]?).getD .undefined) (.obj [])) "make" then
          text (getPropD (jsOr ((parsed[i]?).getD .undefined) (.obj [])) "make") else base.make)) ∧
    (∀ json : String, isSomeArr (jsonParse json) = false → submittedRows json = []) ∧
    (∀ (tmpl : List JsVal) (json : String), submittedRows json = [] →
      parseProposalItems tmpl json = getDefaultProposalItems tmpl) := by
  refine ⟨fun json => rfl, ?_, ?_, fun parsed i base => ⟨rfl, rfl, rfl, rfl, rfl, rfl⟩, ?_, ?_⟩
  · intro tmpl json
    simp only [parseProposalItems]
    split
    · rename_i hd
      rw [List.isEmpty_iff] at hd
      simp only [getDefaultProposalItems] at hd
      rw [List.map_eq_nil_iff] at hd
      rw [List.enum_eq_nil] at hd
      simp [hd]
    · simp [getDefaultProposalItems, List.enum_length]
  · intro tmpl json i base hbase
    simp only [parseProposalItems]
    split
    · rename_i hd
      rw [List.isEmpty_iff] at hd
      rw [hd] at hbase
      simp at hbase
    · simp only [List.getElem?_map, List.getElem?_enum, hbase, Option.map_some]
      rfl
  · intro json h
    simp only [submittedRows]
    split
    · rfl
    · split
      · rename_i l heq
        rw [heq] at h
        simp [isSomeArr] at h
      · rfl
  · intro tmpl json h
    simp only [parseProposalItems, h]
    split
    · rename_i hd
      exact (List.isEmpty_iff.mp hd).symm
    · have hm : ∀ p ∈ (getDefaultProposalItems tmpl).enum,
          mergeProposalRow [] p.1 p.2 = p.2 := fun p _ => rfl
      rw [List.map_congr_left hm]
      exact List.enumFrom_map_snd 0 (getDefaultProposalItems tmpl)

/-- Witness for `parseProposalItems_spec`: one template row and the
    submission `'[{"qty":"5","make":"X"}]'`. -/
theorem parseProposalItems_spec_witness :
    (parseProposalItems
      [.obj [("sr_no", .num 1), ("description", .str "Panel"), ("unit", .str "pcs"),
        ("specification", .str "450W"), ("qty", .str "1"), ("make", .str "Brand")]]
      "[\x7b\"qty\":\"5\",\"make\":\"X\"\x7d]")[0]? =
      some (mergeProposalRow
        (submittedRows "[\x7b\"qty\":\"5\",\"make\":\"X\"\x7d]") 0
        (normalizeProposalTemplateRow
          (.obj [("sr_no", .num 1), ("description", .str "Panel"), ("unit", .str "pcs"),
            ("specification", .str "450W"), ("qty", .str "1"), ("make", .str "Brand")]) 0)) := by
  obtain ⟨-, -, h3, -⟩ := parseProposalItems_spec
  exact h3 _ _ 0 _ rfl

/-- Witness for `parseItems_error_spec`: the all-blank-name submission
    `'[{"name":"  "}]'` has one syntactically present item and fails with
    the "missing name" error rather than saving an empty list. -/
theorem parseItems_error_spec_witness :
    parseItems "[\x7b\"name\":\"  \"\x7d]" = .error (.thrown "Please provide item name.") := by
  obtain ⟨-, -, -, -, -, h6⟩ := parseItems_error_spec
  exact h6 "[\x7b\"name\":\"  \"\x7d]" [.obj [("name", .str "  ")]]
    [calcFields (.obj [("name", .str "  ")])] rfl rfl (by simp)
    (by intro c hc ; simp only [List.mem_singleton] at hc ; subst hc ; rfl)

theorem insertItemRows_ok (oracle : Nat → Bool) (qid : Nat) :
    ∀ (l : List CalcItem) (n : Nat) (conn conn2 : Db) (n2 : Nat),
    insertItemRows oracle n conn qid l = .ok (conn2, n2) →
    conn2.quotes = conn.quotes ∧ conn2.nextId = conn.nextId ∧
    conn2.items = conn.items ++ l.map (mkItemRow qid) := by
  intro l
  induction l with
  | nil =>
    intro n conn conn2 n2 h
    simp only [insertItemRows] at h
    obtain ⟨h1, -⟩ := Prod.mk.injEq .. ▸ (Except.ok.injEq _ _).mp h
    subst h1
    simp
  | cons c rest ih =>
    intro n conn conn2 n2 h
    simp only [insertItemRows] at h
    split at h
    · exact absurd h (by simp)
    · obtain ⟨h1, h2, h3⟩ := ih (n + 1) _ conn2 n2 h
      refine ⟨h1, h2, ?_⟩
      rw [h3]
      simp

theorem saveQuoteTx_new (oracle : Nat → Bool) (db : Db) (items : List CalcItem)
    (quoteDate customerName : String) (body : Body) (pj : String) (s : Summary) :
    ∀ (qid : Nat) (conn : Db) (n : Nat),
    saveQuoteTx oracle db items quoteDate customerName body pj s 0 = .ok (qid, conn, n) →
    qid = db.nextId ∧
    conn.quotes = (db.quotes ++ [insertHeaderRow db.nextId quoteDate customerName body pj s]).map
      (fun r => if r.id == db.nextId then
        { r with quote_no := some (generateQuoteNumber db.nextId quoteDate) } else r) ∧
    conn.items = db.items ++ items.map (mkItemRow db.nextId) ∧
    conn.nextId = db.nextId + 1 := by
  intro qid conn n h
  by_cases ho0 : oracle 0 = true
  · simp only [saveQuoteTx, beq_self_eq_true, eq_self_iff_true, if_true, ho0] at h
    exact absurd h (by simp)
  · have ho0f : oracle 0 = false := by simpa using ho0
    by_cases ho1 : oracle 1 = true
    · simp only [saveQuoteTx, beq_self_eq_true, eq_self_iff_true, if_true, ho0f,
        Bool.false_eq_true, if_false, ho1] at h
      exact absurd h (by simp)
    · have ho1f : oracle 1 = false := by simpa using ho1
      simp only [saveQuoteTx, beq_self_eq_true, eq_self_iff_true, if_true, ho0f, ho1f,
        Bool.false_eq_true, if_false] at h
      split at h
      · rename_i conn2 n2 hins
        simp only [Except.ok.injEq, Prod.mk.injEq] at h
        obtain ⟨ha, hb, -⟩ := h
        subst ha
        subst hb
        obtain ⟨hq2, hn2, hi2⟩ := insertItemRows_ok oracle db.nextId items 2 _ conn2 n2 hins
        refine ⟨rfl, ?_, ?_, ?_⟩
        · rw [hq2]
          rfl
        · rw [hi2]
          rfl
        · rw [hn2]
          rfl
      · exact absurd h (by simp)

theorem saveQuoteTx_edit_preserves (oracle : Nat → Bool) (db : Db) (items : List CalcItem)
    (quoteDate customerName : String) (body : Body) (pj : String) (s : Summary)
    (i : Nat) (qn : String) (hi : i ≠ 0)
    (hq : ∀ r ∈ db.quotes, r.id = i → r.quote_no = some qn) :
    ∀ (qid : Nat) (conn : Db) (n : Nat),
    saveQuoteTx oracle db items quoteDate customerName body pj s i = .ok (qid, conn, n) →
    qid = i ∧ ∀ r ∈ conn.quotes, r.id = i → r.quote_no = some qn := by
  intro qid conn n h
  have h0 : (i == 0) = false := by simpa using hi
  by_cases ho0 : oracle 0 = true
  · simp only [saveQuoteTx, h0, Bool.false_eq_true, if_false, ho0, if_true] at h
    exact absurd h (by simp)
  · have ho0f : oracle 0 = false := by simpa using ho0
    cases hf : findQuote db i with
    | none =>
      simp only [saveQuoteTx, h0, ho0f, Bool.false_eq_true, if_false, hf] at h
      exact absurd h (by simp)
    | some existing =>
      have hmem : existing ∈ db.quotes := List.mem_of_find?_eq_some hf
      have hid : existing.id = i := by
        have := List.find?_some hf
        simpa using this
      have hqn : existing.quote_no = some qn := hq existing hmem hid
      by_cases ho1 : oracle 1 = true
      · simp only [saveQuoteTx, h0, ho0f, Bool.false_eq_true, if_false, hf, ho1,
          eq_self_iff_true, if_true] at h
        exact absurd h (by simp)
      · have ho1f : oracle 1 = false := by simpa using ho1
        by_cases ho2 : oracle 2 = true
        · simp only [saveQuoteTx, h0, ho0f, ho1f, Bool.false_eq_true, if_false, hf, hqn,
            Option.isNone_some, ho2, eq_self_iff_true, if_true] at h
          exact absurd h (by simp)
        · have ho2f : oracle 2 = false := by simpa using ho2
          simp only [saveQuoteTx, h0, ho0f, ho1f, ho2f, Bool.false_eq_true, if_false, hf,
            hqn, Option.isNone_some] at h
          split at h
          · rename_i conn4 n4 hins
            simp only [Except.ok.injEq, Prod.mk.injEq] at h
            obtain ⟨ha, hb, -⟩ := h
            subst ha
            subst hb
            obtain ⟨hquotes, -, -⟩ := insertItemRows_ok oracle i items _ _ conn4 n4 hins
            refine ⟨rfl, ?_⟩
            intro r hr hrid
            rw [hquotes] at hr
            simp only [updateQuoteRows, List.mem_map] at hr
            obtain ⟨r0, hr0, hr0eq⟩ := hr
            by_cases hc0 : r0.id = i
            · have hb0 : (r0.id == i) = true := by simpa using hc0
              rw [hb0] at hr0eq
              simp only [if_true] at hr0eq
              rw [← hr0eq]
              exact hq r0 hr0 hc0
            · have hb0 : (r0.id == i) = false := by simpa using hc0
              rw [hb0] at hr0eq
              simp only [Bool.false_eq_true, if_false] at hr0eq
              rw [← hr0eq] at hrid
              exact absurd hrid hc0
          · exact absurd h (by simp)

theorem saveQuoteTx_edit_ok (oracle : Nat → Bool) (db : Db) (items : List CalcItem)
    (quoteDate customerName : String) (body : Body) (pj : String) (s : Summary)
    (i : Nat) (hi : i ≠ 0) :
    ∀ (qid : Nat) (conn : Db) (n : Nat),
    saveQuoteTx oracle db items quoteDate customerName body pj s i = .ok (qid, conn, n) →
    qid = i ∧
    conn.items = db.items.filter (fun it => it.quote_id != i) ++ items.map (mkItemRow i) ∧
    ∃ r ∈ conn.quotes, r.id = i ∧ r.quote_no.isSome = true ∧
      r.subtotal = s.subtotal ∧ r.cgst_total = s.cgstTotal ∧
      r.sgst_total = s.sgstTotal ∧ r.total = s.total := by
  intro qid conn n h
  have h0 : (i == 0) = false := by simpa using hi
  by_cases ho0 : oracle 0 = true
  · simp only [saveQuoteTx, h0, Bool.false_eq_true, if_false, ho0, if_true] at h
    exact absurd h (by simp)
  · have ho0f : oracle 0 = false := by simpa using ho0
    cases hf : findQuote db i with
    | none =>
      simp only [saveQuoteTx, h0, ho0f, Bool.false_eq_true, if_false, hf] at h
      exact absurd h (by simp)
    | some existing =>
      have hmem : existing ∈ db.quotes := List.mem_of_find?_eq_some hf
      have hid : existing.id = i := by
        have := List.find?_some hf
        simpa using this
      by_cases ho1 : oracle 1 = true
      · simp only [saveQuoteTx, h0, ho0f, Bool.false_eq_true, if_false, hf, ho1,
          eq_self_iff_true, if_true] at h
        exact absurd h (by simp)
      · have ho1f : oracle 1 = false := by simpa using ho1
        cases hnone : existing.quote_no with
        | some q =>
          by_cases ho2 : oracle 2 = true
          · simp only [saveQuoteTx, h0, ho0f, ho1f, Bool.false_eq_true, if_false, hf,
              hnone, Option.isNone_some, ho2, eq_self_iff_true, if_true] at h
            exact absurd h (by simp)
          · have ho2f : oracle 2 = false := by simpa using ho2
            simp only [saveQuoteTx, h0, ho0f, ho1f, ho2f, Bool.false_eq_true, if_false,
              hf, hnone, Option.isNone_some] at h
            split at h
            · rename_i conn4 n4 hins
              simp only [Except.ok.injEq, Prod.mk.injEq] at h
              obtain ⟨ha, hb, -⟩ := h
              subst ha
              subst hb
              obtain ⟨hquotes, -, hitems⟩ :=
                insertItemRows_ok oracle i items _ _ conn4 n4 hins
              refine ⟨rfl, by rw [hitems] ; rfl, ?_⟩
              refine ⟨updateHeaderFields quoteDate customerName body pj s existing, ?_, ?_, ?_, rfl, rfl, rfl, rfl⟩
              · rw [hquotes]
                have : updateHeaderFields quoteDate customerName body pj s existing =
                    (fun r => if (r.id == i) = true then
                      updateHeaderFields quoteDate customerName body pj s r else r) existing := by
                  have hb0 : (existing.id == i) = true := by simpa using hid
                  simp [hb0]
                rw [this]
                exact List.mem_map_of_mem _ hmem
              · exact hid
              · show existing.quote_no.isSome = true
                rw [hnone]
                rfl
            · exact absurd h (by simp)
        | none =>
          by_cases ho2 : oracle 2 = true
          · simp only [saveQuoteTx, h0, ho0f, ho1f, Bool.false_eq_true, if_false, hf,
              hnone, Option.isNone_none, ho2, eq_self_iff_true, if_true] at h
            exact absurd h (by simp)
          · have ho2f : oracle 2 = false := by simpa using ho2
            by_cases ho3 : oracle 3 = true
            · simp only [saveQuoteTx, h0, ho0f, ho1f, ho2f, ho3, Bool.false_eq_true,
                if_false, hf, hnone, Option.isNone_none, eq_self_iff_true, if_true] at h
              exact absurd h (by simp)
            · have ho3f : oracle 3 = false := by simpa using ho3
              simp only [saveQuoteTx, h0, ho0f, ho1f, ho2f, ho3f, Bool.false_eq_true,
                if_false, hf, hnone, Option.isNone_none, eq_self_iff_true, if_true] at h
              split at h
              · rename_i conn4 n4 hins
                simp only [Except.ok.injEq, Prod.mk.injEq] at h
                obtain ⟨ha, hb, -⟩ := h
                subst ha
                subst hb
                obtain ⟨hquotes, -, hitems⟩ :=
                  insertItemRows_ok oracle i items _ _ conn4 n4 hins
                refine ⟨rfl, by rw [hitems] ; rfl, ?_⟩
                have hb0 : (existing.id == i) = true := by simpa using hid
                refine ⟨{ updateHeaderFields quoteDate customerName body pj s existing with
                    quote_no := some (generateQuoteNumber i quoteDate) }, ?_, hid, rfl, rfl, rfl, rfl, rfl⟩
                rw [hquotes]
                have himg : ({ updateHeaderFields quoteDate customerName body pj s existing with
                    quote_no := some (generateQuoteNumber i quoteDate) } : QuoteRow) =
                    (fun r => if (r.id == i) = true then
                      { r with quote_no := some (generateQuoteNumber i quoteDate) } else r)
                      ((fun r => if (r.id == i) = true then
                        updateHeaderFields quoteDate customerName body pj s r else r) existing) := by
                  simp [hb0,
                    show (updateHeaderFields quoteDate customerName body pj s existing).id = i
                      from hid]
                rw [himg]
                exact List.mem_map_of_mem _ (List.mem_map_of_mem _ hmem)
              · exact absurd h (by simp)

theorem saveQuote_error_rollback (db : Db) (oracle : Nat → Bool) (tmpl : List JsVal)
    (today : String) (body : Body) (quoteId : Nat) (e : String) (db2 : Db) :
    saveQuote db oracle tmpl today body quoteId = (.error e, db2) → db2 = db := by
  intro h
  simp only [saveQuote] at h
  repeat' split at h
  all_goals simp only [Prod.mk.injEq] at h
  all_goals obtain ⟨hres, hdb⟩ := h
  all_goals first
    | exact hdb.symm
    | exact absurd hres (by simp)

/-- C7: the quote number has the format
    `Q-<year of quote_date>-<id zero-padded to 4 digits>`; a new save assigns
    it right after the header row receives its id (every stored row with the
    new id carries it), and an edit of a quotation whose number is already
    assigned never changes it — whatever the new date, customer, totals,
    items or notes, and whether the save succeeds or fails. -/
theorem quoteNumber_spec :
    (∀ (id : Nat) (quoteDate : String),
      generateQuoteNumber id quoteDate =
        "Q-" ++ (match jsDateYear quoteDate with
          | some y => toString y
          | none => "NaN") ++ "-" ++ padStart 4 '0' (toString id)) ∧
    generateQuoteNumber 1 "2024-03-15" = "Q-2024-0001" ∧
    generateQuoteNumber 7 "2024-06-01" = "Q-2024-0007" ∧
    (∀ (db : Db) (oracle : Nat → Bool) (tmpl : List JsVal) (today : String) (body : Body)
        (i : Nat) (db2 : Db),
      (∀ r ∈ db.quotes, r.id < db.nextId) →
      saveQuote db oracle tmpl today body 0 = (.ok i, db2) →
      ∀ r ∈ db2.quotes, r.id = i → r.quote_no =
        some (generateQuoteNumber i
          (if body.quote_date == "" then today else body.quote_date))) ∧
    (∀ (db : Db) (oracle : Nat → Bool) (tmpl : List JsVal) (today : String) (body : Body)
        (i : Nat) (qn : String) (res : Except String Nat) (db2 : Db),
      0 < i →
      (∀ r ∈ db.quotes, r.id = i → r.quote_no = some qn) →
      saveQuote db oracle tmpl today body i = (res, db2) →
      ∀ r ∈ db2.quotes, r.id = i → r.quote_no = some qn) := by
  refine ⟨fun id quoteDate => rfl, rfl, rfl, ?_, ?_⟩
  · intro db oracle tmpl today body i db2 hwf h
    simp only [saveQuote] at h
    cases hpi : parseItems (if body.items_json == "" then "[]" else body.items_json) with
    | error e =>
      cases e with
      | thrown m =>
        simp only [hpi, Prod.mk.injEq] at h
        exact absurd h.1 (by simp)
      | typeErr =>
        simp only [hpi, Prod.mk.injEq] at h
        exact absurd h.1 (by simp)
    | ok items =>
      simp only [hpi] at h
      split at h
      · simp only [Prod.mk.injEq] at h
        exact absurd h.1 (by simp)
      · split at h
        · rename_i qid conn n2 htx
          split at h
          · simp only [Prod.mk.injEq] at h
            exact absurd h.1 (by simp)
          · simp only [Prod.mk.injEq, Except.ok.injEq] at h
            obtain ⟨hqid, hdb⟩ := h
            subst hqid
            subst hdb
            obtain ⟨hq1, hquotes, -, -⟩ :=
              saveQuoteTx_new oracle db items _ _ body _ _ qid conn n2 htx
            subst hq1
            intro r hr hrid
            rw [hquotes] at hr
            simp only [List.mem_map] at hr
            obtain ⟨r0, hr0, hr0eq⟩ := hr
            by_cases hc0 : r0.id = db.nextId
            · have hb0 : (r0.id == db.nextId) = true := by simpa using hc0
              rw [hb0] at hr0eq
              simp only [if_true] at hr0eq
              rw [← hr0eq]
            · have hb0 : (r0.id == db.nextId) = false := by simpa using hc0
              rw [hb0] at hr0eq
              simp only [Bool.false_eq_true, if_false] at hr0eq
              subst hr0eq
              rcases List.mem_append.mp hr0 with hin | hnew
              · exact absurd hrid (Nat.ne_of_lt (hwf r0 hin))
              · simp only [List.mem_singleton] at hnew
                subst hnew
                exact absurd hrid hc0
        · rename_i e htx
          simp only [Prod.mk.injEq] at h
          exact absurd h.1 (by simp)
  · intro db oracle tmpl today body i qn res db2 hipos hq h
    cases res with
    | error e =>
      have := saveQuote_error_rollback db oracle tmpl today body i e db2 h
      subst this
      exact hq
    | ok j =>
      simp only [saveQuote] at h
      cases hpi : parseItems (if body.items_json == "" then "[]" else body.items_json) with
      | error e =>
        cases e with
        | thrown m =>
          simp only [hpi, Prod.mk.injEq] at h
          exact absurd h.1 (by simp)
        | typeErr =>
          simp only [hpi, Prod.mk.injEq] at h
          exact absurd h.1 (by simp)
      | ok items =>
        simp only [hpi] at h
        split at h
        · simp only [Prod.mk.injEq] at h
          exact absurd h.1 (by simp)
        · split at h
          · rename_i qid conn n2 htx
            split at h
            · simp only [Prod.mk.injEq] at h
              exact absurd h.1 (by simp)
            · simp only [Prod.mk.injEq, Except.ok.injEq] at h
              obtain ⟨hqid, hdb⟩ := h
              subst hdb
              obtain ⟨-, hpres⟩ := saveQuoteTx_edit_preserves oracle db items _ _ body _ _
                i qn (Nat.pos_iff_ne_zero.mp hipos) hq qid conn n2 htx
              exact hpres
          · rename_i e htx
            simp only [Prod.mk.injEq] at h
            exact absurd h.1 (by simp)

/-- Witness for `quoteNumber_spec`: a stored quotation with number
    `Q-2024-0001` is edited with a date in 2025; the save succeeds and every
    stored row with its id still carries `Q-2024-0001`. -/
theorem quoteNumber_spec_witness :
    ((saveQuote
      { quotes := [{
            id := 1, quote_no := some "Q-2024-0001", quote_date := "2024-03-15",
            customer_name := "A", customer_phone := none, customer_email := none,
            customer_address := none, customer_gstin := none, proposal_items_json := "[]",
            subtotal := some 0, cgst_total := some 0, sgst_total := some 0, total := some 0,
            notes := none }],
        items := [], nextId := 2 }
      (fun _ => false) []
      "2025-06-01"
      { items_json := "[\x7b\"name\":\"p\",\"qty\":1,\"unit_price\":10,\"gst_rate\":0\x7d]",
        proposal_items_json := "", quote_date := "2025-01-01", customer_name := "A",
        customer_phone := "", customer_email := "", customer_address := "",
        customer_gstin := "", notes := "" }
      1).1 = .ok 1) ∧
    ((saveQuote
      { quotes := [{
            id := 1, quote_no := some "Q-2024-0001", quote_date := "2024-03-15",
            customer_name := "A", customer_phone := none, customer_email := none,
            customer_address := none, customer_gstin := none, proposal_items_json := "[]",
            subtotal := some 0, cgst_total := some 0, sgst_total := some 0, total := some 0,
            notes := none }],
        items := [], nextId := 2 }
      (fun _ => false) []
      "2025-06-01"
      { items_json := "[\x7b\"name\":\"p\",\"qty\":1,\"unit_price\":10,\"gst_rate\":0\x7d]",
        proposal_items_json := "", quote_date := "2025-01-01", customer_name := "A",
        customer_phone := "", customer_email := "", customer_address := "",
        customer_gstin := "", notes := "" }
      1).2.quotes.all
        (fun r => !(r.id == 1) || (r.quote_no == some "Q-2024-0001"))) = true := by
  constructor
  · rfl
  · obtain ⟨-, -, -, -, h5⟩ := quoteNumber_spec
    have hpres := h5
      { quotes := [{
            id := 1, quote_no := some "Q-2024-0001", quote_date := "2024-03-15",
            customer_name := "A", customer_phone := none, customer_email := none,
            customer_address := none, customer_gstin := none, proposal_items_json := "[]",
            subtotal := some 0, cgst_total := some 0, sgst_total := some 0, total := some 0,
            notes := none }],
        items := [], nextId := 2 }
      (fun _ => false) []
      "2025-06-01"
      { items_json := "[\x7b\"name\":\"p\",\"qty\":1,\"unit_price\":10,\"gst_rate\":0\x7d]",
        proposal_items_json := "", quote_date := "2025-01-01", customer_name := "A",
        customer_phone := "", customer_email := "", customer_address := "",
        customer_gstin := "", notes := "" }
      1 "Q-2024-0001" _ _ (by norm_num)
      (by
        intro r hr hrid
        rw [List.mem_singleton] at hr
        subst hr
        rfl)
      rfl
    rw [List.all_eq_true]
    intro r hr
    by_cases hid : r.id = 1
    · have := hpres r hr hid
      simp [this]
    · have : (r.id == 1) = false := by simpa using hid
      simp [this]

/-- C8: one save is atomic.  On any failure — input validation, the missing
    quotation, or a failed query anywhere in the transaction (modelled by the
    `oracle`) — the store is returned unchanged (rollback).  On success all
    writes took effect: the line items stored for the quotation are exactly
    the freshly calculated ones (stale items are gone), and the stored header
    carries the freshly computed totals and an assigned quote number. -/
theorem saveQuote_atomic :
    (∀ (db : Db) (oracle : Nat → Bool) (tmpl : List JsVal) (today : String) (body : Body)
        (quoteId : Nat) (e : String) (db2 : Db),
      saveQuote db oracle tmpl today body quoteId = (.error e, db2) → db2 = db) ∧
    (∀ (db : Db) (oracle : Nat → Bool) (tmpl : List JsVal) (today : String) (body : Body)
        (i : Nat) (db2 : Db),
      (∀ it ∈ db.items, it.quote_id < db.nextId) →
      saveQuote db oracle tmpl today body 0 = (.ok i, db2) →
      ∃ items, parseItems (if body.items_json == "" then "[]" else body.items_json)
          = .ok items ∧
        db2.items.filter (fun it => it.quote_id == i) = items.map (mkItemRow i) ∧
        ∃ r ∈ db2.quotes, r.id = i ∧ r.quote_no.isSome = true ∧
          r.subtotal = (buildQuoteSummary items).subtotal ∧
          r.cgst_total = (buildQuoteSummary items).cgstTotal ∧
          r.sgst_total = (buildQuoteSummary items).sgstTotal ∧
          r.total = (buildQuoteSummary items).total) ∧
    (∀ (db : Db) (oracle : Nat → Bool) (tmpl : List JsVal) (today : String) (body : Body)
        (i j : Nat) (db2 : Db),
      0 < i →
      saveQuote db oracle tmpl today body i = (.ok j, db2) →
      j = i ∧
      ∃ items, parseItems (if body.items_json == "" then "[]" else body.items_json)
          = .ok items ∧
        db2.items.filter (fun it => it.quote_id == i) = items.map (mkItemRow i) ∧
        ∃ r ∈ db2.quotes, r.id = i ∧ r.quote_no.isSome = true ∧
          r.subtotal = (buildQuoteSummary items).subtotal ∧
          r.cgst_total = (buildQuoteSummary items).cgstTotal ∧
          r.sgst_total = (buildQuoteSummary items).sgstTotal ∧
          r.total = (buildQuoteSummary items).total) := by
  refine ⟨saveQuote_error_rollback, ?_, ?_⟩
  · intro db oracle tmpl today body i db2 hwf h
    simp only [saveQuote] at h
    cases hpi : parseItems (if body.items_json == "" then "[]" else body.items_json) with
    | error e =>
      cases e with
      | thrown m =>
        simp only [hpi, Prod.mk.injEq] at h
        exact absurd h.1 (by simp)
      | typeErr =>
        simp only [hpi, Prod.mk.injEq] at h
        exact absurd h.1 (by simp)
    | ok items =>
      simp only [hpi] at h
      split at h
      · simp only [Prod.mk.injEq] at h
        exact absurd h.1 (by simp)
      · split at h
        · rename_i qid conn n2 htx
          split at h
          · simp only [Prod.mk.injEq] at h
            exact absurd h.1 (by simp)
          · simp only [Prod.mk.injEq, Except.ok.injEq] at h
            obtain ⟨hqid, hdb⟩ := h
            subst hqid
            subst hdb
            obtain ⟨hq1, hquotes, hitems, -⟩ :=
              saveQuoteTx_new oracle db items _ _ body _ _ qid conn n2 htx
            subst hq1
            refine ⟨items, rfl, ?_, ?_⟩
            · rw [hitems, List.filter_append]
              have h1 : db.items.filter (fun it => it.quote_id == db.nextId) = [] := by
                rw [List.filter_eq_nil_iff]
                intro it hin
                have := hwf it hin
                simp [Nat.ne_of_lt this]
              have h2 : (items.map (mkItemRow db.nextId)).filter
                  (fun it => it.quote_id == db.nextId) = items.map (mkItemRow db.nextId) := by
                rw [List.filter_eq_self]
                intro a ha
                rw [List.mem_map] at ha
                obtain ⟨c, -, hc⟩ := ha
                subst hc
                simp [mkItemRow]
              rw [h1, h2, List.nil_append]
            · refine ⟨{ insertHeaderRow db.nextId
                  (if body.quote_date == "" then today else body.quote_date)
                  (jsTrim body.customer_name) body
                  (stringifyPropRows (parseProposalItems tmpl
                    (if body.proposal_items_json == "" then "[]"
                      else body.proposal_items_json)))
                  (buildQuoteSummary items) with
                  quote_no := some (generateQuoteNumber db.nextId
                    (if body.quote_date == "" then today else body.quote_date)) },
                ?_, rfl, rfl, rfl, rfl, rfl, rfl⟩
              rw [hquotes]
              have hmem0 : insertHeaderRow db.nextId
                  (if body.quote_date == "" then today else body.quote_date)
                  (jsTrim body.customer_name) body
                  (stringifyPropRows (parseProposalItems tmpl
                    (if body.proposal_items_json == "" then "[]"
                      else body.proposal_items_json)))
                  (buildQuoteSummary items) ∈
                  db.quotes ++ [insertHeaderRow db.nextId
                    (if body.quote_date == "" then today else body.quote_date)
                    (jsTrim body.customer_name) body
                    (stringifyPropRows (parseProposalItems tmpl
                      (if body.proposal_items_json == "" then "[]"
                        else body.proposal_items_json)))
                    (buildQuoteSummary items)] :=
                List.mem_append_right _ (List.mem_singleton.mpr rfl)
              exact List.mem_map.mpr ⟨_, hmem0, by simp [insertHeaderRow]⟩
        · rename_i e htx
          simp only [Prod.mk.injEq] at h
          exact absurd h.1 (by simp)
  · intro db oracle tmpl today body i j db2 hipos h
    simp only [saveQuote] at h
    cases hpi : parseItems (if body.items_json == "" then "[]" else body.items_json) with
    | error e =>
      cases e with
      | thrown m =>
        simp only [hpi, Prod.mk.injEq] at h
        exact absurd h.1 (by simp)
      | typeErr =>
        simp only [hpi, Prod.mk.injEq] at h
        exact absurd h.1 (by simp)
    | ok items =>
      simp only [hpi] at h
      split at h
      · simp only [Prod.mk.injEq] at h
        exact absurd h.1 (by simp)
      · split at h
        · rename_i qid conn n2 htx
          split at h
          · simp only [Prod.mk.injEq] at h
            exact absurd h.1 (by simp)
          · simp only [Prod.mk.injEq, Except.ok.injEq] at h
            obtain ⟨hqid, hdb⟩ := h
            subst hdb
            obtain ⟨hq1, hitems, r, hrmem, hrid, hrno, hrs⟩ :=
              saveQuoteTx_edit_ok oracle db items _ _ body _ _ i
                (Nat.pos_iff_ne_zero.mp hipos) qid conn n2 htx
            refine ⟨hqid ▸ hq1, items, rfl, ?_, ⟨r, hrmem, hrid, hrno, hrs⟩⟩
            rw [hitems, List.filter_append]
            have h1 : (db.items.filter (fun it => it.quote_id != i)).filter
                (fun it => it.quote_id == i) = [] := by
              rw [List.filter_eq_nil_iff]
              intro it hin
              rw [List.mem_filter] at hin
              simpa using hin.2
            have h2 : (items.map (mkItemRow i)).filter
                (fun it => it.quote_id == i) = items.map (mkItemRow i) := by
              rw [List.filter_eq_self]
              intro a ha
              rw [List.mem_map] at ha
              obtain ⟨c, -, hc⟩ := ha
              subst hc
              simp [mkItemRow]
            rw [h1, h2, List.nil_append]
        · rename_i e htx
          simp only [Prod.mk.injEq] at h
          exact absurd h.1 (by simp)

/-- Witness for `saveQuote_atomic`: saving a new quotation with one item
    into an empty store succeeds, stores exactly the calculated items for the
    new id and a header with the computed totals and an assigned number. -/
theorem saveQuote_atomic_witness :
    ∃ items,
      parseItems "[\x7b\"name\":\"p\",\"qty\":1,\"unit_price\":10,\"gst_rate\":0\x7d]"
        = .ok items ∧
      (saveQuote { quotes := [], items := [], nextId := 1 } (fun _ => false) []
        "2024-03-15"
        { items_json := "[\x7b\"name\":\"p\",\"qty\":1,\"unit_price\":10,\"gst_rate\":0\x7d]",
          proposal_items_json := "", quote_date := "2024-03-15", customer_name := "A",
          customer_phone := "", customer_email := "", customer_address := "",
          customer_gstin := "", notes := "" }
        0).2.items.filter (fun it => it.quote_id == 1) = items.map (mkItemRow 1) ∧
      ∃ r ∈ (saveQuote { quotes := [], items := [], nextId := 1 } (fun _ => false) []
        "2024-03-15"
        { items_json := "[\x7b\"name\":\"p\",\"qty\":1,\"unit_price\":10,\"gst_rate\":0\x7d]",
          proposal_items_json := "", quote_date := "2024-03-15", customer_name := "A",
          customer_phone := "", customer_email := "", customer_address := "",
          customer_gstin := "", notes := "" }
        0).2.quotes, r.id = 1 ∧ r.quote_no.isSome = true ∧
        r.subtotal = (buildQuoteSummary items).subtotal ∧
        r.cgst_total = (buildQuoteSummary items).cgstTotal ∧
        r.sgst_total = (buildQuoteSummary items).sgstTotal ∧
        r.total = (buildQuoteSummary items).total := by
  obtain ⟨-, h2, -⟩ := saveQuote_atomic
  exact h2 { quotes := [], items := [], nextId := 1 } (fun _ => false) []
    "2024-03-15"
    { items_json := "[\x7b\"name\":\"p\",\"qty\":1,\"unit_price\":10,\"gst_rate\":0\x7d]",
      proposal_items_json := "", quote_date := "2024-03-15", customer_name := "A",
      customer_phone := "", customer_email := "", customer_address := "",
      customer_gstin := "", notes := "" }
    1 _
    (by intro it hit ; exact absurd hit (List.not_mem_nil it))
    rfl

theorem foldl_max_init_le {α : Type} (f : α → ℚ) :
    ∀ (l : List α) (b : ℚ), b ≤ l.foldl (fun m x => max m (f x)) b := by
  intro l
  induction l with
  | nil => intro b ; exact le_refl b
  | cons a t ih =>
    intro b
    exact le_trans (le_max_left b (f a)) (ih (max b (f a)))

theorem foldl_max_mem_le {α : Type} (f : α → ℚ) :
    ∀ (l : List α) (b : ℚ), ∀ x ∈ l, f x ≤ l.foldl (fun m x => max m (f x)) b := by
  intro l
  induction l with
  | nil => intro b x hx ; exact absurd hx (List.not_mem_nil x)
  | cons a t ih =>
    intro b x hx
    rcases List.mem_cons.mp hx with hxa | hxt
    · subst hxa
      exact le_trans (le_max_right b (f x)) (foldl_max_init_le f t (max b (f x)))
    · exact ih (max b (f a)) x hxt

theorem foldl_max_cases {α : Type} (f : α → ℚ) :
    ∀ (l : List α) (b : ℚ), l.foldl (fun m x => max m (f x)) b = b ∨
      ∃ x ∈ l, l.foldl (fun m x => max m (f x)) b = f x := by
  intro l
  induction l with
  | nil => intro b ; exact Or.inl rfl
  | cons a t ih =>
    intro b
    rcases ih (max b (f a)) with h | ⟨x, hx, hfx⟩
    · simp only [List.foldl_cons]
      rcases max_choice b (f a) with hb | hf
      · exact Or.inl (h.trans hb)
      · exact Or.inr ⟨a, List.mem_cons_self a t, h.trans hf⟩
    · exact Or.inr ⟨x, List.mem_cons_of_mem a hx, hfx⟩

theorem drawRows_le (cfg : DocCfg) (title : String) (repeatT : Bool)
    (cols : List Column) (pageBottom : ℚ) :
    ∀ (rows : List JsVal) (y : ℚ),
    (∀ row ∈ rows, rowHeightOf cfg cols row +
      (cfg.marginTop + (if title != "" && repeatT then (24 : ℚ) else 0) + 24) ≤ pageBottom) →
    y ≤ pageBottom →
    (drawRows cfg title repeatT cols pageBottom y rows).1 ≤ pageBottom := by
  intro rows
  induction rows with
  | nil => intro y hfit hy ; exact hy
  | cons row rest ih =>
    intro y hfit hy
    simp only [drawRows]
    split
    · rename_i hover
      exact ih _ (fun r hr => hfit r (List.mem_cons_of_mem row hr))
        (by
          have := hfit row (List.mem_cons_self row rest)
          linarith)
    · rename_i hover
      push_neg at hover
      exact ih _ (fun r hr => hfit r (List.mem_cons_of_mem row hr)) (by linarith)

/-- C9, counterexample to the claim as stated: with a wrapped-text height of
    1000 for the single cell, the row is taller than a page; `drawTable`
    breaks the page once and then draws the row anyway, returning the
    cursor `y = 1042`, which is NOT less than the printable bottom bound
    `90`.  The returned cursor therefore is not always below the bound. -/
theorem drawTable_tall_row_exceeds_bottom :
    ¬ ((drawTable
        { pageHeight := 100, marginTop := 10, marginBottom := 10,
          heightOfString := fun _ _ => 1000 } ""
        [{ key := "a", label := "A", width := 50 }] [.obj []] 10 true).1 < 100 - 10) ∧
    ((drawTable
        { pageHeight := 100, marginTop := 10, marginBottom := 10,
          heightOfString := fun _ _ => 1000 } ""
        [{ key := "a", label := "A", width := 50 }] [.obj []] 10 true).1) = 1042 := by
  constructor
  · norm_num [drawTable, drawRows, rowHeightOf, rowValuesOf, cellText, text, jsOr, truthy,
      getPropD, max_def]
  · norm_num [drawTable, drawRows, rowHeightOf, rowValuesOf, cellText, text, jsOr, truthy,
      getPropD, max_def]

/-- C9 (amended): each row's height is the maximum over columns of the
    wrapped-text height of its coerced cell text plus 8 units of padding,
    floored at 24; a row that would overflow the bottom margin triggers a
    page break, with the title redrawn exactly when one is present and
    title repetition is enabled, followed by the header and then the row;
    and the cursor `y` returned by `drawTable` is at most the printable
    bottom bound provided the repeated title+header fit on a page and every
    row fits on a fresh page below them (without that proviso the bound
    fails, and at an exact fit the bound is reached, so `≤`, not `<`). -/
theorem drawTable_pagination_spec :
    (∀ (cfg : DocCfg) (cols : List Column) (row : JsVal),
      (24 ≤ rowHeightOf cfg cols row ∧
        ∀ p ∈ (rowValuesOf cols row).zip cols,
          cfg.heightOfString p.1 (p.2.width - 8) + 8 ≤ rowHeightOf cfg cols row) ∧
      (rowHeightOf cfg cols row = 24 ∨
        ∃ p ∈ (rowValuesOf cols row).zip cols,
          rowHeightOf cfg cols row = cfg.heightOfString p.1 (p.2.width - 8) + 8)) ∧
    (∀ (cfg : DocCfg) (title : String) (repeatT : Bool) (cols : List Column)
        (pageBottom y : ℚ) (row : JsVal) (rest : List JsVal),
      y + rowHeightOf cfg cols row > pageBottom →
      drawRows cfg title repeatT cols pageBottom y (row :: rest) =
        ((drawRows cfg title repeatT cols pageBottom
            (cfg.marginTop + (if title != "" && repeatT then (24 : ℚ) else 0) + 24 +
              rowHeightOf cfg cols row) rest).1,
          [Ev.addPage] ++ (if title != "" && repeatT then [Ev.titleRow title] else []) ++
            [Ev.headerRow,
              Ev.rowCells (rowValuesOf cols row) (rowHeightOf cfg cols row)] ++
            (drawRows cfg title repeatT cols pageBottom
              (cfg.marginTop + (if title != "" && repeatT then (24 : ℚ) else 0) + 24 +
                rowHeightOf cfg cols row) rest).2)) ∧
    (∀ (cfg : DocCfg) (title : String) (cols : List Column) (rows : List JsVal)
        (startY : ℚ) (repeatT : Bool),
      cfg.marginTop + (if title != "" then (24 : ℚ) else 0) + 24 ≤
        cfg.pageHeight - cfg.marginBottom →
      (∀ row ∈ rows, rowHeightOf cfg cols row +
        (cfg.marginTop + (if title != "" && repeatT then (24 : ℚ) else 0) + 24) ≤
        cfg.pageHeight - cfg.marginBottom) →
      (drawTable cfg title cols rows startY repeatT).1 ≤
        cfg.pageHeight - cfg.marginBottom) := by
  refine ⟨?_, ?_, ?_⟩
  · intro cfg cols row
    refine ⟨⟨foldl_max_init_le _ _ 24, fun p hp => foldl_max_mem_le _ _ 24 p hp⟩, ?_⟩
    exact foldl_max_cases _ ((rowValuesOf cols row).zip cols) 24
  · intro cfg title repeatT cols pageBottom y row rest hover
    simp only [drawRows]
    rw [if_pos hover]
    simp [List.append_assoc]
  · intro cfg title cols rows startY repeatT hm hrows
    simp only [drawTable]
    apply drawRows_le cfg title repeatT cols _ rows _ hrows
    by_cases ht : (title != "") = true
    · simp only [ht, Bool.true_and, eq_self_iff_true, if_true] at *
      split_ifs <;> simp only [] <;> push_neg at * <;> linarith
    · rw [Bool.not_eq_true] at ht
      simp only [ht, Bool.false_and, Bool.false_eq_true, if_false] at *
      split_ifs <;> simp only [] <;> push_neg at * <;> linarith

/-- Witness for `drawTable_pagination_spec`: a one-row table whose repeated
    title and header plus the row fit on a page keeps the cursor within the
    printable bound. -/
theorem drawTable_pagination_spec_witness :
    (drawTable
      { pageHeight := 200, marginTop := 10, marginBottom := 10,
        heightOfString := fun _ _ => 20 } "T"
      [{ key := "a", label := "A", width := 50 }] [.obj []] 10 true).1 ≤ 200 - 10 := by
  obtain ⟨-, -, h3⟩ := drawTable_pagination_spec
  refine h3 _ "T" _ [.obj []] 10 true ?_ ?_
  · have hne : ("T" : String) ≠ "" := by decide
    norm_num [hne]
  · intro row hrow
    rw [List.mem_singleton] at hrow
    subst hrow
    have hne : ("T" : String) ≠ "" := by decide
    norm_num [hne, rowHeightOf, rowValuesOf, cellText, text, jsOr, truthy, getPropD,
      max_def]

/-- C10: `drawTable` coerces every falsy cell value — `null`, `undefined`,
    the number 0, `false`, and `NaN` — to the empty string via
    `text(row[col.key] || '')`, both when measuring (the row height is
    computed from the same coerced texts) and when drawing (the emitted row
    events carry those texts); in particular a cell whose row value is the
    number 0 is rendered blank rather than as "0". -/
theorem drawTable_falsy_cell_blank :
    (∀ v : JsVal, truthy v = false → text (jsOr v (.str "")) = "") ∧
    (∀ (row : JsVal) (col : Column), truthy (getPropD row col.key) = false →
      cellText row col = "") ∧
    cellText (.obj [("qty", .num 0)]) { key := "qty", label := "Qty", width := 50 } = "" ∧
    cellText (.obj [("qty", .bool false)]) { key := "qty", label := "Qty", width := 50 } = "" ∧
    cellText (.obj [("qty", .nan)]) { key := "qty", label := "Qty", width := 50 } = "" ∧
    (∀ (cfg : DocCfg) (title : String) (repeatT : Bool) (cols : List Column)
        (pageBottom y : ℚ) (rows : List JsVal) (texts : List String) (hgt : ℚ),
      Ev.rowCells texts hgt ∈ (drawRows cfg title repeatT cols pageBottom y rows).2 →
      ∃ row ∈ rows, texts = rowValuesOf cols row ∧ hgt = rowHeightOf cfg cols row) := by
  have hblank : ∀ v : JsVal, truthy v = false → text (jsOr v (.str "")) = "" := by
    intro v hv
    simp [jsOr, hv, text, jsToString]
  refine ⟨hblank, ?_, ?_, ?_, ?_, ?_⟩
  · intro row col hcol
    exact hblank (getPropD row col.key) hcol
  · exact hblank (.num 0) (by simp [truthy])
  · exact hblank (.bool false) (by simp [truthy])
  · exact hblank .nan (by simp [truthy])
  · intro cfg title repeatT cols pageBottom y rows
    induction rows generalizing y with
    | nil =>
      intro texts hgt hmem
      simp [drawRows] at hmem
    | cons row rest ih =>
      intro texts hgt hmem
      simp only [drawRows] at hmem
      split at hmem
      · by_cases htr : (title != "" && repeatT) = true
        · simp only [htr, if_true, List.append_assoc, List.cons_append, List.nil_append,
            List.mem_cons] at hmem
          rcases hmem with h1 | h1 | h1 | h1 | h1
          · exact absurd h1 (by simp)
          · exact absurd h1 (by simp)
          · exact absurd h1 (by simp)
          · obtain ⟨ht, hh⟩ := Ev.rowCells.inj h1
            exact ⟨row, List.mem_cons_self row rest, ht, hh⟩
          · obtain ⟨r, hr, hrest⟩ := ih _ texts hgt h1
            exact ⟨r, List.mem_cons_of_mem row hr, hrest⟩
        · rw [Bool.not_eq_true] at htr
          simp only [htr, Bool.false_eq_true, if_false, List.append_assoc, List.cons_append,
            List.nil_append, List.mem_cons] at hmem
          rcases hmem with h1 | h1 | h1 | h1
          · exact absurd h1 (by simp)
          · exact absurd h1 (by simp)
          · obtain ⟨ht, hh⟩ := Ev.rowCells.inj h1
            exact ⟨row, List.mem_cons_self row rest, ht, hh⟩
          · obtain ⟨r, hr, hrest⟩ := ih _ texts hgt h1
            exact ⟨r, List.mem_cons_of_mem row hr, hrest⟩
      · rcases List.mem_cons.mp hmem with h1 | h1
        · obtain ⟨ht, hh⟩ := Ev.rowCells.inj h1.symm
          exact ⟨row, List.mem_cons_self row rest, ht.symm, hh.symm⟩
        · obtain ⟨r, hr, hrest⟩ := ih _ texts hgt h1
          exact ⟨r, List.mem_cons_of_mem row hr, hrest⟩

/-- Witness for `drawTable_falsy_cell_blank`: a cell whose value is the
    number 0 renders as the empty string. -/
theorem drawTable_falsy_cell_blank_witness :
    cellText (.obj [("qty", .num 0)]) { key := "qty", label := "Qty", width := 60 } = "" := by
  obtain ⟨-, h2, -⟩ := drawTable_falsy_cell_blank
  exact h2 (.obj [("qty", .num 0)]) { key := "qty", label := "Qty", width := 60 }
    (by simp [getPropD, truthy])

end SolarQuotes